import Mathlib

set_option maxRecDepth 100000

/-!
Shallow embedding of the LS-8 machine interpreter from `ls8/cpu.py` and its
entry point `ls8/ls8.py`, together with theorems checking the specification's
claims about it.

Modelling conventions:
* Python integers are unbounded, so registers, memory cells, the program
  counter and the flags register are `Int`.
* Python list indexing (`xs[i]`) accepts negative indices (`-len ≤ i < len`
  wraps from the end) and raises `IndexError` otherwise; `pyGet`/`pySet`
  reproduce this exactly.
* Python's `&`, `|` and `>>` on `int` are two's-complement bit operations on
  unbounded integers; `pyAnd`, `pyOr` and `pyShr` reproduce them (written with
  `Nat.land`/`Nat.lor`/`Nat.shiftRight` so that they evaluate).
* Exceptions are modelled with `Except PyErr`; the two `raise Exception(...)`
  sites of `cpu.py` become the two constructors carrying exactly the data the
  source interpolates into the message (failing address and opcode byte,
  resp. opcode byte).
* `print` output is collected in an `out` event list; the actual textual
  formatting of stdout is not modelled.
-/

namespace LS8

/-- Decidable equality for `Except`, so that concrete machine runs can be
checked by `decide`. -/
instance {ε α : Type} [DecidableEq ε] [DecidableEq α] : DecidableEq (Except ε α) := fun a b =>
  match a, b with
  | .ok x, .ok y =>
    if h : x = y then .isTrue (by rw [h]) else .isFalse (by simp [h])
  | .error x, .error y =>
    if h : x = y then .isTrue (by rw [h]) else .isFalse (by simp [h])
  | .ok _, .error _ => .isFalse (by simp)
  | .error _, .ok _ => .isFalse (by simp)

/-- Python runtime errors that the interpreter can raise: `IndexError` from
list indexing, `ValueError` from `int(_, 2)` and from `format(_, 'c')`, and
the two `Exception`s raised explicitly by `CPU.run` / `CPU.unimplemented_op`
(each carrying the values interpolated into its message). -/
inductive PyErr where
  | indexError
  | valueError
  | invalidOpcode (addr : Int) (op : Int)
  | unimplementedOpcode (op : Int)
deriving DecidableEq

/-- One `print` performed by the machine: `PRN` prints a decimal number,
`PRA` prints the character with the given code point. -/
inductive OutEvent where
  | num (v : Int)
  | chr (v : Int)
deriving DecidableEq

/-- Python list index resolution for a list of length `n`: a nonnegative
index must be `< n`, a negative index `i` means `n + i` and must resolve to a
nonnegative position; anything else is an `IndexError` (`none`). -/
def pyIdx (n : Nat) (i : Int) : Option Nat :=
  if 0 ≤ i ∧ i < (n : Int) then some i.toNat
  else if i < 0 ∧ 0 ≤ i + (n : Int) then some (i + (n : Int)).toNat
  else none

/-- Python `xs[i]` on a list of integers. -/
def pyGet (l : List Int) (i : Int) : Except PyErr Int :=
  match pyIdx l.length i with
  | some k => .ok (l.getD k 0)
  | none => .error .indexError

/-- Python `xs[i] = v` on a list of integers. -/
def pySet (l : List Int) (i : Int) (v : Int) : Except PyErr (List Int) :=
  match pyIdx l.length i with
  | some k => .ok (l.set k v)
  | none => .error .indexError

/-- Python `x & y` on unbounded two's-complement integers
(`-(m+1)` has bit pattern `NOT m`; `m AND (NOT n) = m - (m AND n)`). -/
def pyAnd : Int → Int → Int
  | .ofNat m, .ofNat n => .ofNat (Nat.land m n)
  | .ofNat m, .negSucc n => .ofNat (m - Nat.land m n)
  | .negSucc m, .ofNat n => .ofNat (n - Nat.land n m)
  | .negSucc m, .negSucc n => .negSucc (Nat.lor m n)

/-- Python `x | y` on unbounded two's-complement integers. -/
def pyOr : Int → Int → Int
  | .ofNat m, .ofNat n => .ofNat (Nat.lor m n)
  | .ofNat m, .negSucc n => .negSucc (n - Nat.land n m)
  | .negSucc m, .ofNat n => .negSucc (m - Nat.land m n)
  | .negSucc m, .negSucc n => .negSucc (Nat.land m n)

/-- Python `x >> k` (arithmetic shift) on unbounded integers. -/
def pyShr : Int → Nat → Int
  | .ofNat m, k => .ofNat (Nat.shiftRight m k)
  | .negSucc m, k => .negSucc (Nat.shiftRight m k)

/-! Opcode constants, exactly as defined at the top of `cpu.py`. -/

def NOP : Int := 0b00000000
def HLT : Int := 0b00000001
def ADD : Int := 0b10100000
def SUB : Int := 0b10100001
def DIV : Int := 0b10100011
def MUL : Int := 0b10100010
def MOD : Int := 0b10100100
def AND : Int := 0b10101000
def NOT : Int := 0b01101001
def OR : Int := 0b10101010
def XOR : Int := 0b10101011
def SHL : Int := 0b10101100
def SHR : Int := 0b10101101
def CALL : Int := 0b01010000
def RET : Int := 0b00010001
def POP : Int := 0b01000110
def PUSH : Int := 0b01000101
def JMP : Int := 0b01010100
def CMP : Int := 0b10100111
def JEQ : Int := 0b01010101
def JNE : Int := 0b01010110
def JGE : Int := 0b01011010
def JGT : Int := 0b01010111
def JLE : Int := 0b01011001
def JLT : Int := 0b01011000
def LD : Int := 0b10000011
def ST : Int := 0b10000100
def LDI : Int := 0b10000010
def DEC : Int := 0b01100110
def INC : Int := 0b01100101
def INT : Int := 0b01010010
def IRET : Int := 0b00010011
def PRA : Int := 0b01001000
def PRN : Int := 0b01000111

/-- `SP = 7`: register 7 is the stack pointer. -/
def SP : Int := 7

/-- The handlers that appear as values of `self.instruction_table`. -/
inductive Handler where
  | nop | hlt | ldi | ld | add | mul | inc | dec | prn | pra
  | push | pop | call | ret | cmp | jeq | jne | jmp
  | unimplemented
deriving DecidableEq

/-- The machine state owned by class `CPU`: `self.ram` (256 cells),
`self.reg` (8 cells), `self.pc`, `self.running`, `self.flags`, plus the
stream of print events (not a field of the source class, but the observable
output of `PRN`/`PRA`). `self.instruction_table` is a constant mapping and is
modelled by the function `instruction_table` below. -/
structure CPU where
  ram : List Int
  reg : List Int
  pc : Int
  running : Bool
  flags : Int
  out : List OutEvent
deriving DecidableEq

/-- The state built by `CPU.__init__`. -/
def CPU.init : CPU :=
  { ram := List.replicate 256 0
    reg := List.replicate 8 0
    pc := 0
    running := true
    flags := 0b00000000
    out := [] }

/-- The 34 key/handler pairs registered into `self.instruction_table` by
`CPU.__init__`, in registration order: every defined opcode maps to its
handler and the sixteen opcodes wired to `self.unimplemented_op` map to
`.unimplemented`. All keys are distinct. -/
def opPairs : List (Int × Handler) :=
  [(NOP, .nop), (HLT, .hlt), (ADD, .add), (SUB, .unimplemented),
   (DIV, .unimplemented), (MUL, .mul), (MOD, .unimplemented),
   (AND, .unimplemented), (NOT, .unimplemented), (OR, .unimplemented),
   (XOR, .unimplemented), (SHL, .unimplemented), (SHR, .unimplemented),
   (CALL, .call), (RET, .ret), (POP, .pop), (PUSH, .push), (JMP, .jmp),
   (CMP, .cmp), (JEQ, .jeq), (JNE, .jne), (JGE, .unimplemented),
   (JGT, .unimplemented), (JLE, .unimplemented), (JLT, .unimplemented),
   (LD, .ld), (ST, .unimplemented), (LDI, .ldi), (DEC, .dec), (INC, .inc),
   (INT, .unimplemented), (IRET, .unimplemented), (PRA, .pra), (PRN, .prn)]

/-- `self.instruction_table` as a lookup: dict membership (`op in
self.instruction_table`) and access (`self.instruction_table[op]`) on the
dict whose entries are `opPairs`; any other byte is absent (`none`). -/
def instruction_table (op : Int) : Option Handler :=
  (opPairs.find? (fun p => p.1 == op)).map Prod.snd

/-- `CPU.push_stack`: `self.reg[SP] -= 1; self.ram[self.reg[SP]] = val`. -/
def push_stack (s : CPU) (val : Int) : Except PyErr CPU := do
  let sp ← pyGet s.reg SP
  let reg1 ← pySet s.reg SP (sp - 1)
  let ram1 ← pySet s.ram (sp - 1) val
  pure { s with reg := reg1, ram := ram1 }

/-- `CPU.pop_stack`: `val = self.ram[self.reg[SP]]; self.reg[SP] += 1`. -/
def pop_stack (s : CPU) : Except PyErr (Int × CPU) := do
  let sp ← pyGet s.reg SP
  let val ← pyGet s.ram sp
  let reg1 ← pySet s.reg SP (sp + 1)
  pure (val, { s with reg := reg1 })

/-- `CPU.unimplemented_op`: raises with the opcode's representation. -/
def unimplemented_op (op _a _b : Int) (_s : CPU) : Except PyErr CPU :=
  .error (.unimplementedOpcode op)

/-- `CPU.op_ldi`: `self.reg[reg_a] = reg_b`. -/
def op_ldi (_op reg_a reg_b : Int) (s : CPU) : Except PyErr CPU := do
  let reg1 ← pySet s.reg reg_a reg_b
  pure { s with reg := reg1 }

/-- `CPU.op_ld`: `self.reg[reg_a] = self.ram[self.reg[reg_b]]`. -/
def op_ld (_op reg_a reg_b : Int) (s : CPU) : Except PyErr CPU := do
  let addr ← pyGet s.reg reg_b
  let v ← pyGet s.ram addr
  let reg1 ← pySet s.reg reg_a v
  pure { s with reg := reg1 }

/-- `CPU.op_add`: `self.reg[reg_a] += self.reg[reg_b]`. -/
def op_add (_op reg_a reg_b : Int) (s : CPU) : Except PyErr CPU := do
  let x ← pyGet s.reg reg_a
  let y ← pyGet s.reg reg_b
  let reg1 ← pySet s.reg reg_a (x + y)
  pure { s with reg := reg1 }

/-- `CPU.op_mul`: `self.reg[reg_a] *= self.reg[reg_b]`. -/
def op_mul (_op reg_a reg_b : Int) (s : CPU) : Except PyErr CPU := do
  let x ← pyGet s.reg reg_a
  let y ← pyGet s.reg reg_b
  let reg1 ← pySet s.reg reg_a (x * y)
  pure { s with reg := reg1 }

/-- `CPU.op_inc`: `self.reg[reg_a] += 1`. -/
def op_inc (_op reg_a _reg_b : Int) (s : CPU) : Except PyErr CPU := do
  let x ← pyGet s.reg reg_a
  let reg1 ← pySet s.reg reg_a (x + 1)
  pure { s with reg := reg1 }

/-- `CPU.op_dec`: `self.reg[reg_a] -= 1`. -/
def op_dec (_op reg_a _reg_b : Int) (s : CPU) : Except PyErr CPU := do
  let x ← pyGet s.reg reg_a
  let reg1 ← pySet s.reg reg_a (x - 1)
  pure { s with reg := reg1 }

/-- `CPU.op_prn`: prints `reg[reg_a]` in decimal. -/
def op_prn (_op reg_a _reg_b : Int) (s : CPU) : Except PyErr CPU := do
  let v ← pyGet s.reg reg_a
  pure { s with out := s.out ++ [.num v] }

/-- `CPU.op_pra`: prints `reg[reg_a]` as a character (`{v:c}`); Python's
`chr` formatting raises `ValueError` outside the code-point range. -/
def op_pra (_op reg_a _reg_b : Int) (s : CPU) : Except PyErr CPU := do
  let v ← pyGet s.reg reg_a
  if 0 ≤ v ∧ v < 1114112 then
    pure { s with out := s.out ++ [.chr v] }
  else
    .error .valueError

/-- `CPU.op_nop`: `pass`. -/
def op_nop (_op _reg_a _reg_b : Int) (s : CPU) : Except PyErr CPU :=
  pure s

/-- `CPU.op_hlt`: `self.running = False`. -/
def op_hlt (_op _reg_a _reg_b : Int) (s : CPU) : Except PyErr CPU :=
  pure { s with running := false }

/-- `CPU.op_push`: `self.push_stack(self.reg[reg_a])`. -/
def op_push (_op reg_a _reg_b : Int) (s : CPU) : Except PyErr CPU := do
  let v ← pyGet s.reg reg_a
  push_stack s v

/-- `CPU.op_pop`: `self.reg[reg_a] = self.pop_stack()`. -/
def op_pop (_op reg_a _reg_b : Int) (s : CPU) : Except PyErr CPU := do
  let r ← pop_stack s
  let reg1 ← pySet r.2.reg reg_a r.1
  pure { r.2 with reg := reg1 }

/-- `CPU.op_call`: push `self.pc + 2`, then `self.pc = self.reg[reg_a]`
(read from the register file after the push has decremented SP). -/
def op_call (_op reg_a _reg_b : Int) (s : CPU) : Except PyErr CPU := do
  let s1 ← push_stack s (s.pc + 2)
  let t ← pyGet s1.reg reg_a
  pure { s1 with pc := t }

/-- `CPU.op_ret`: `self.pc = self.pop_stack()`. -/
def op_ret (_op _reg_a _reg_b : Int) (s : CPU) : Except PyErr CPU := do
  let r ← pop_stack s
  pure { r.2 with pc := r.1 }

/-- `CPU.op_cmp`: clear the flags, then set Equal (1), Greater (2), Less (4)
by the three comparisons, each or-ed in. -/
def op_cmp (_op reg_a reg_b : Int) (s : CPU) : Except PyErr CPU := do
  let a ← pyGet s.reg reg_a
  let b ← pyGet s.reg reg_b
  let f0 : Int := 0b00000000
  let f1 := if a = b then pyOr f0 0b00000001 else f0
  let f2 := if a > b then pyOr f1 0b00000010 else f1
  let f3 := if a < b then pyOr f2 0b00000100 else f2
  pure { s with flags := f3 }

/-- `CPU.op_jeq`: jump to `reg[reg_a]` if the Equal bit is set, else
`self.pc += 2`. -/
def op_jeq (_op reg_a _reg_b : Int) (s : CPU) : Except PyErr CPU :=
  if pyAnd s.flags 0b00000001 ≠ 0 then do
    let t ← pyGet s.reg reg_a
    pure { s with pc := t }
  else
    pure { s with pc := s.pc + 2 }

/-- `CPU.op_jne`: jump to `reg[reg_a]` if the Equal bit is clear, else
`self.pc += 2`. -/
def op_jne (_op reg_a _reg_b : Int) (s : CPU) : Except PyErr CPU :=
  if pyAnd s.flags 0b00000001 = 0 then do
    let t ← pyGet s.reg reg_a
    pure { s with pc := t }
  else
    pure { s with pc := s.pc + 2 }

/-- `CPU.op_jmp`: `self.pc = self.reg[reg_a]`. -/
def op_jmp (_op reg_a _reg_b : Int) (s : CPU) : Except PyErr CPU := do
  let t ← pyGet s.reg reg_a
  pure { s with pc := t }

/-- Dispatch a table entry to the method it is bound to. -/
def applyHandler : Handler → Int → Int → Int → CPU → Except PyErr CPU
  | .nop, op, a, b, s => op_nop op a b s
  | .hlt, op, a, b, s => op_hlt op a b s
  | .ldi, op, a, b, s => op_ldi op a b s
  | .ld, op, a, b, s => op_ld op a b s
  | .add, op, a, b, s => op_add op a b s
  | .mul, op, a, b, s => op_mul op a b s
  | .inc, op, a, b, s => op_inc op a b s
  | .dec, op, a, b, s => op_dec op a b s
  | .prn, op, a, b, s => op_prn op a b s
  | .pra, op, a, b, s => op_pra op a b s
  | .push, op, a, b, s => op_push op a b s
  | .pop, op, a, b, s => op_pop op a b s
  | .call, op, a, b, s => op_call op a b s
  | .ret, op, a, b, s => op_ret op a b s
  | .cmp, op, a, b, s => op_cmp op a b s
  | .jeq, op, a, b, s => op_jeq op a b s
  | .jne, op, a, b, s => op_jne op a b s
  | .jmp, op, a, b, s => op_jmp op a b s
  | .unimplemented, op, a, b, s => unimplemented_op op a b s

/-- `op_size = (0b11000000 & op) >> 6`. -/
def op_size (op : Int) : Int := pyShr (pyAnd 0b11000000 op) 6

/-- `is_alu = ((0b00100000 & op) >> 5) == 1`. -/
def is_alu (op : Int) : Bool := pyShr (pyAnd 0b00100000 op) 5 == 1

/-- `sets_pc = ((0b00010000 & op) >> 4) == 1`. -/
def sets_pc (op : Int) : Bool := pyShr (pyAnd 0b00010000 op) 4 == 1

/-- The ALU post-step of `CPU.run`: `self.reg[a] &= 0xFF`. -/
def alu_mask (a : Int) (s : CPU) : Except PyErr CPU := do
  let x ← pyGet s.reg a
  let reg1 ← pySet s.reg a (pyAnd x 0xFF)
  pure { s with reg := reg1 }

/-- One iteration of the `while` body of `CPU.run` up to and including the
ALU masking, returning the resulting state together with the fetched opcode
(from which the engine then decides the PC advance): fetch `op`, `a`, `b`
from `pc`, `pc+1`, `pc+2`; dispatch through the instruction table or raise
`Invalid opcode at {pc}: {op}`; if `is_alu`, mask `reg[a]`. -/
def stepCore (s : CPU) : Except PyErr (CPU × Int) := do
  let op ← pyGet s.ram s.pc
  let a ← pyGet s.ram (s.pc + 1)
  let b ← pyGet s.ram (s.pc + 2)
  match instruction_table op with
  | none => .error (.invalidOpcode s.pc op)
  | some h => do
    let s1 ← applyHandler h op a b s
    let s2 ← if is_alu op then alu_mask a s1 else pure s1
    pure (s2, op)

/-- One full iteration of the `while` body of `CPU.run`: `stepCore`
followed by the default PC advance `self.pc += 1 + op_size`, skipped when
`sets_pc`. -/
def step (s : CPU) : Except PyErr CPU := do
  let r ← stepCore s
  pure (if sets_pc r.2 then r.1 else { r.1 with pc := r.1.pc + 1 + op_size r.2 })

/-- `CPU.run`: iterate `step` while `self.running`, with explicit fuel
(the Python loop has no bound; `fuel` many iterations are modelled). -/
def run : Nat → CPU → Except PyErr CPU
  | 0, s => .ok s
  | fuel + 1, s =>
    if s.running then do
      let s1 ← step s
      run fuel s1
    else .ok s

/-! The loader, `CPU.load`. Its input is the list of lines produced by
`f.readlines()`: every line of the text file, each retaining its trailing
newline except possibly the file's last line. -/

/-- Python `line.find(c)`: index of the first occurrence, `-1` if absent. -/
def pyFind : List Char → Char → Int
  | [], _ => -1
  | x :: xs, c =>
    if x = c then 0
    else
      let r := pyFind xs c
      if r = -1 then -1 else r + 1

/-- Python `line[:j]`: for `j ≥ 0` the first `j` characters, for `j < 0` all
but the last `-j` characters (clamped at the ends). -/
def pySliceTo (l : List Char) (j : Int) : List Char :=
  if 0 ≤ j then l.take j.toNat else l.take ((l.length : Int) + j).toNat

/-- Python `str.isspace` characters relevant to `str.strip()` on ASCII. -/
def is_space (c : Char) : Bool :=
  c = ' ' || c = '\t' || c = '\n' || c = '\r' || c = '\x0b' || c = '\x0c'

/-- Python `line.strip()`: drop leading and trailing whitespace. -/
def py_strip (l : List Char) : List Char :=
  ((l.dropWhile is_space).reverse.dropWhile is_space).reverse

/-- Binary digits accumulator for `int(s, 2)`. -/
def binValAux : List Char → Nat → Option Nat
  | [], acc => some acc
  | c :: cs, acc =>
    if c = '0' then binValAux cs (2 * acc)
    else if c = '1' then binValAux cs (2 * acc + 1)
    else none

/-- Python `int(s, 2)` on an already-stripped string: an optional sign, an
optional `0b`/`0B` prefix, then at least one binary digit; anything else
raises `ValueError` (`none`). Underscore digit grouping, which no program
file in this repository uses, is not modelled. -/
def int_base2 (l : List Char) : Option Int :=
  let signed : Int × List Char :=
    match l with
    | '+' :: r => (1, r)
    | '-' :: r => (-1, r)
    | r => (1, r)
  let digits : List Char :=
    match signed.2 with
    | '0' :: 'b' :: r => r
    | '0' :: 'B' :: r => r
    | r => r
  match digits with
  | [] => none
  | _ => (binValAux digits 0).map (fun n => signed.1 * (n : Int))

/-- The per-line processing of `CPU.load`:
`comment_start = line.find("#")`, `without_comment = line[:comment_start]`,
`clean_line = without_comment.strip()`. -/
def clean_line (line : List Char) : List Char :=
  py_strip (pySliceTo line (pyFind line '#'))

/-- The first loop of `CPU.load`: build `program`, skipping lines whose
cleaned form is empty and parsing every other cleaned line with
`int(clean_line, 2)`. -/
def parse_program : List (List Char) → Except PyErr (List Int)
  | [] => .ok []
  | line :: rest =>
    let c := clean_line line
    if c = [] then parse_program rest
    else
      match int_base2 c with
      | none => .error .valueError
      | some v => do
        let prog ← parse_program rest
        pure (v :: prog)

/-- The second loop of `CPU.load`: write the parsed program into memory at
consecutive addresses starting from `addr`. -/
def store_program : List Int → Int → List Int → Except PyErr (List Int)
  | [], _, ram => .ok ram
  | v :: rest, addr, ram => do
    let ram1 ← pySet ram addr v
    store_program rest (addr + 1) ram1

/-- `CPU.load` on the lines of the program file. -/
def load (lines : List (List Char)) (s : CPU) : Except PyErr CPU := do
  let prog ← parse_program lines
  let ram1 ← store_program prog 0 s.ram
  pure { s with ram := ram1 }

/-- The handlers whose source methods never assign `self.pc` (everything
except `op_call`, `op_ret`, `op_jmp`, `op_jeq`, `op_jne`). -/
def pcKeeps : Handler → Bool
  | .call | .ret | .jmp | .jeq | .jne => false
  | _ => true

/-!
Auxiliary lemmas about the embedding.
-/

theorem pyGet_ok (l : List Int) (i : Int) (h0 : 0 ≤ i) (h1 : i < (l.length : Int)) :
    pyGet l i = .ok (l.getD i.toNat 0) := by
  simp [pyGet, pyIdx, h0, h1]

theorem pySet_ok (l : List Int) (i v : Int) (h0 : 0 ≤ i) (h1 : i < (l.length : Int)) :
    pySet l i v = .ok (l.set i.toNat v) := by
  simp [pySet, pyIdx, h0, h1]

theorem pyGet_error {l : List Int} {i : Int} {e : PyErr} (h : pyGet l i = .error e) :
    e = .indexError := by
  unfold pyGet at h
  split at h
  · exact Except.noConfusion h
  · injection h with h2
    exact h2.symm

theorem pySet_error {l : List Int} {i v : Int} {e : PyErr} (h : pySet l i v = .error e) :
    e = .indexError := by
  unfold pySet at h
  split at h
  · exact Except.noConfusion h
  · injection h with h2
    exact h2.symm

theorem getD_set_self (l : List Int) (k : Nat) (v : Int) (h : k < l.length) :
    (l.set k v).getD k 0 = v := by
  simp [List.getD_eq_getElem?_getD, List.getElem?_set_self, h]

theorem getD_set_ne (l : List Int) (k j : Nat) (v : Int) (h : k ≠ j) :
    (l.set j v).getD k 0 = l.getD k 0 := by
  simp [List.getD_eq_getElem?_getD, List.getElem?_set_ne (Ne.symm h)]

theorem nat_land_255 (m : Nat) : Nat.land m 255 = m % 256 := by
  show m &&& 255 = m % 256
  have h : (256 : Nat) = 2 ^ 8 := by norm_num
  have h255 : (255 : Nat) = 2 ^ 8 - 1 := by norm_num
  apply Nat.eq_of_testBit_eq
  intro i
  rw [Nat.testBit_land, h, Nat.testBit_mod_two_pow, h255, Nat.testBit_two_pow_sub_one]
  by_cases hi : i < 8 <;> simp [hi]

theorem nat_land_255' (m : Nat) : Nat.land 255 m = m % 256 := by
  show 255 &&& m = m % 256
  rw [Nat.land_comm]
  exact nat_land_255 m

/-- The cross-cutting fact behind the ALU invariant: Python's `x & 0xFF`
equals `x mod 256` on every integer, two's complement included. -/
theorem pyAnd_255 (z : Int) : pyAnd z 255 = z % 256 := by
  cases z with
  | ofNat m =>
    show Int.ofNat (Nat.land m 255) = _
    rw [nat_land_255]
    simp only [Int.ofNat_eq_natCast]
    omega
  | negSucc m =>
    show Int.ofNat (255 - Nat.land 255 m) = _
    rw [nat_land_255']
    simp only [Int.ofNat_eq_natCast, Int.negSucc_eq]
    omega

/-- Unfolding of one run-loop iteration once the three fetches and the
table lookup are known. -/
theorem step_eq (s : CPU) (op a b : Int) (h : Handler)
    (hop : pyGet s.ram s.pc = .ok op)
    (ha : pyGet s.ram (s.pc + 1) = .ok a)
    (hb : pyGet s.ram (s.pc + 2) = .ok b)
    (ht : instruction_table op = some h) :
    step s =
      (applyHandler h op a b s).bind (fun s1 =>
        ((if is_alu op then alu_mask a s1 else Except.ok s1).bind (fun s2 =>
          Except.ok (if sets_pc op then s2
                else { s2 with pc := s2.pc + 1 + op_size op })))) := by
  simp only [step, stepCore, hop, ha, hb, ht, bind, Except.bind, pure, Except.pure]
  cases happ : applyHandler h op a b s with
  | error e => rfl
  | ok s1 =>
    by_cases halu : is_alu op = true
    · simp only [halu, if_true]
      cases hm : alu_mask a s1 with
      | error e => rfl
      | ok s2 => rfl
    · simp only [halu, Bool.false_eq_true, if_false]

theorem table_ADD : instruction_table ADD = some .add := by decide

theorem table_MUL : instruction_table MUL = some .mul := by decide

theorem table_INC : instruction_table INC = some .inc := by decide

theorem table_DEC : instruction_table DEC = some .dec := by decide

theorem table_CMP : instruction_table CMP = some .cmp := by decide

theorem table_JEQ : instruction_table JEQ = some .jeq := by decide

theorem table_JNE : instruction_table JNE = some .jne := by decide

theorem table_CALL : instruction_table CALL = some .call := by decide

theorem table_RET : instruction_table RET = some .ret := by decide

theorem table_HLT : instruction_table HLT = some .hlt := by decide

theorem is_alu_ADD : is_alu ADD = true := by decide

theorem is_alu_MUL : is_alu MUL = true := by decide

theorem is_alu_INC : is_alu INC = true := by decide

theorem is_alu_DEC : is_alu DEC = true := by decide

theorem is_alu_CMP : is_alu CMP = true := by decide

theorem is_alu_JEQ : is_alu JEQ = false := by decide

theorem is_alu_JNE : is_alu JNE = false := by decide

theorem is_alu_CALL : is_alu CALL = false := by decide

theorem is_alu_RET : is_alu RET = false := by decide

theorem is_alu_HLT : is_alu HLT = false := by decide

theorem sets_pc_ADD : sets_pc ADD = false := by decide

theorem sets_pc_MUL : sets_pc MUL = false := by decide

theorem sets_pc_INC : sets_pc INC = false := by decide

theorem sets_pc_DEC : sets_pc DEC = false := by decide

theorem sets_pc_CMP : sets_pc CMP = false := by decide

theorem sets_pc_JEQ : sets_pc JEQ = true := by decide

theorem sets_pc_JNE : sets_pc JNE = true := by decide

theorem sets_pc_CALL : sets_pc CALL = true := by decide

theorem sets_pc_RET : sets_pc RET = true := by decide

theorem sets_pc_HLT : sets_pc HLT = false := by decide

theorem op_size_CMP : op_size CMP = 2 := by decide

theorem op_size_HLT : op_size HLT = 0 := by decide

/-- A step executing a two-operand ALU instruction whose handler wrote `res`
into register `A` leaves `res % 256` there: the fetch/dispatch layer, the
`reg[a] &= 0xFF` post-step and the PC advance combined. -/
theorem step_alu_write (s : CPU) (opc A B res : Int) (hnd : Handler)
    (hreg : s.reg.length = 8)
    (hpc0 : 0 ≤ s.pc) (hpc1 : s.pc ≤ 253) (hram : s.ram.length = 256)
    (hop : s.ram.getD s.pc.toNat 0 = opc)
    (hA : s.ram.getD (s.pc + 1).toNat 0 = A)
    (hB : s.ram.getD (s.pc + 2).toNat 0 = B)
    (hA0 : 0 ≤ A) (hA1 : A < 8)
    (htab : instruction_table opc = some hnd)
    (halu : is_alu opc = true) (hspc : sets_pc opc = false)
    (happ : applyHandler hnd opc A B s = .ok { s with reg := s.reg.set A.toNat res }) :
    Except.map (fun t => t.reg.getD A.toNat 0) (step s) = .ok (res % 256) := by
  have h1 : pyGet s.ram s.pc = .ok opc := by
    rw [pyGet_ok _ _ hpc0 (by omega), hop]
  have h2 : pyGet s.ram (s.pc + 1) = .ok A := by
    rw [pyGet_ok _ _ (by omega) (by omega), hA]
  have h3 : pyGet s.ram (s.pc + 2) = .ok B := by
    rw [pyGet_ok _ _ (by omega) (by omega), hB]
  rw [step_eq s opc A B hnd h1 h2 h3 htab, happ]
  have hlen : ((s.reg.set A.toNat res).length : Int) = 8 := by
    rw [List.length_set]; exact_mod_cast hreg
  have hga2 : pyGet (s.reg.set A.toNat res) A = .ok res := by
    rw [pyGet_ok _ _ hA0 (by omega)]
    rw [getD_set_self _ _ _ (by omega)]
  have hsa2 : pySet (s.reg.set A.toNat res) A (pyAnd res 255) =
      .ok ((s.reg.set A.toNat res).set A.toNat (pyAnd res 255)) :=
    pySet_ok _ _ _ hA0 (by omega)
  simp only [alu_mask, hga2, hsa2, halu, hspc, if_true, Bool.false_eq_true, if_false,
    bind, Except.bind, pure, Except.pure, Except.map]
  rw [getD_set_self _ _ _ (by simp only [List.length_set]; omega)]
  rw [pyAnd_255]

/-- C1: for every ALU-flagged instruction the engine masks register A to
8 bits after the handler runs, so the stored result is the arithmetic result
mod 256: after `ADD` with `reg[A] = v`, `reg[B] = w` the stored value is
`(v + w) % 256`, after `MUL` it is `(v * w) % 256`, and `INC`/`DEC` store
`(v + 1) % 256` resp. `(v - 1) % 256`, wrapping at the 0/255 boundary. -/
theorem claim_C1_alu_masking :
    (∀ (s : CPU) (A B v w : Int),
      s.reg.length = 8 → s.ram.length = 256 →
      0 ≤ s.pc → s.pc ≤ 253 →
      s.ram.getD s.pc.toNat 0 = ADD →
      s.ram.getD (s.pc + 1).toNat 0 = A →
      s.ram.getD (s.pc + 2).toNat 0 = B →
      0 ≤ A → A < 8 → 0 ≤ B → B < 8 →
      s.reg.getD A.toNat 0 = v →
      s.reg.getD B.toNat 0 = w →
      Except.map (fun t => t.reg.getD A.toNat 0) (step s) = .ok ((v + w) % 256)) ∧
    (∀ (s : CPU) (A B v w : Int),
      s.reg.length = 8 → s.ram.length = 256 →
      0 ≤ s.pc → s.pc ≤ 253 →
      s.ram.getD s.pc.toNat 0 = MUL →
      s.ram.getD (s.pc + 1).toNat 0 = A →
      s.ram.getD (s.pc + 2).toNat 0 = B →
      0 ≤ A → A < 8 → 0 ≤ B → B < 8 →
      s.reg.getD A.toNat 0 = v →
      s.reg.getD B.toNat 0 = w →
      Except.map (fun t => t.reg.getD A.toNat 0) (step s) = .ok ((v * w) % 256)) ∧
    (∀ (s : CPU) (A B v : Int),
      s.reg.length = 8 → s.ram.length = 256 →
      0 ≤ s.pc → s.pc ≤ 253 →
      s.ram.getD s.pc.toNat 0 = INC →
      s.ram.getD (s.pc + 1).toNat 0 = A →
      s.ram.getD (s.pc + 2).toNat 0 = B →
      0 ≤ A → A < 8 →
      s.reg.getD A.toNat 0 = v →
      Except.map (fun t => t.reg.getD A.toNat 0) (step s) = .ok ((v + 1) % 256)) ∧
    (∀ (s : CPU) (A B v : Int),
      s.reg.length = 8 → s.ram.length = 256 →
      0 ≤ s.pc → s.pc ≤ 253 →
      s.ram.getD s.pc.toNat 0 = DEC →
      s.ram.getD (s.pc + 1).toNat 0 = A →
      s.ram.getD (s.pc + 2).toNat 0 = B →
      0 ≤ A → A < 8 →
      s.reg.getD A.toNat 0 = v →
      Except.map (fun t => t.reg.getD A.toNat 0) (step s) = .ok ((v - 1) % 256)) := by
  refine ⟨?_, ?_, ?_, ?_⟩
  · intro s A B v w hreg hram hpc0 hpc1 hop hA hB hA0 hA1 hB0 hB1 hv hw
    have hga : pyGet s.reg A = .ok v := by rw [pyGet_ok _ _ hA0 (by omega), hv]
    have hgb : pyGet s.reg B = .ok w := by rw [pyGet_ok _ _ hB0 (by omega), hw]
    have hsa : pySet s.reg A (v + w) = .ok (s.reg.set A.toNat (v + w)) :=
      pySet_ok _ _ _ hA0 (by omega)
    have happ : applyHandler .add ADD A B s =
        .ok { s with reg := s.reg.set A.toNat (v + w) } := by
      simp only [applyHandler, op_add, hga, hgb, hsa, bind, Except.bind, pure, Except.pure]
    exact step_alu_write s ADD A B (v + w) .add hreg hpc0 hpc1 hram hop hA hB hA0 hA1
      table_ADD is_alu_ADD sets_pc_ADD happ
  · intro s A B v w hreg hram hpc0 hpc1 hop hA hB hA0 hA1 hB0 hB1 hv hw
    have hga : pyGet s.reg A = .ok v := by rw [pyGet_ok _ _ hA0 (by omega), hv]
    have hgb : pyGet s.reg B = .ok w := by rw [pyGet_ok _ _ hB0 (by omega), hw]
    have hsa : pySet s.reg A (v * w) = .ok (s.reg.set A.toNat (v * w)) :=
      pySet_ok _ _ _ hA0 (by omega)
    have happ : applyHandler .mul MUL A B s =
        .ok { s with reg := s.reg.set A.toNat (v * w) } := by
      simp only [applyHandler, op_mul, hga, hgb, hsa, bind, Except.bind, pure, Except.pure]
    exact step_alu_write s MUL A B (v * w) .mul hreg hpc0 hpc1 hram hop hA hB hA0 hA1
      table_MUL is_alu_MUL sets_pc_MUL happ
  · intro s A B v hreg hram hpc0 hpc1 hop hA hB hA0 hA1 hv
    have hga : pyGet s.reg A = .ok v := by rw [pyGet_ok _ _ hA0 (by omega), hv]
    have hsa : pySet s.reg A (v + 1) = .ok (s.reg.set A.toNat (v + 1)) :=
      pySet_ok _ _ _ hA0 (by omega)
    have happ : applyHandler .inc INC A B s =
        .ok { s with reg := s.reg.set A.toNat (v + 1) } := by
      simp only [applyHandler, op_inc, hga, hsa, bind, Except.bind, pure, Except.pure]
    exact step_alu_write s INC A B (v + 1) .inc hreg hpc0 hpc1 hram hop hA hB hA0 hA1
      table_INC is_alu_INC sets_pc_INC happ
  · intro s A B v hreg hram hpc0 hpc1 hop hA hB hA0 hA1 hv
    have hga : pyGet s.reg A = .ok v := by rw [pyGet_ok _ _ hA0 (by omega), hv]
    have hsa : pySet s.reg A (v - 1) = .ok (s.reg.set A.toNat (v - 1)) :=
      pySet_ok _ _ _ hA0 (by omega)
    have happ : applyHandler .dec DEC A B s =
        .ok { s with reg := s.reg.set A.toNat (v - 1) } := by
      simp only [applyHandler, op_dec, hga, hsa, bind, Except.bind, pure, Except.pure]
    exact step_alu_write s DEC A B (v - 1) .dec hreg hpc0 hpc1 hram hop hA hB hA0 hA1
      table_DEC is_alu_DEC sets_pc_DEC happ

/-- Witness for C1 at concrete machines: `ADD` on 250 and 10 stores 4,
`MUL` on 16 and 32 stores 0, `INC` on 255 wraps to 0, `DEC` on 0 wraps
to 255. -/
theorem claim_C1_alu_masking_witness :
    Except.map (fun t => t.reg.getD (0 : Int).toNat 0)
      (step { CPU.init with
        ram := (((List.replicate 256 0).set 0 ADD).set 1 0).set 2 1,
        reg := ((List.replicate 8 0).set 0 250).set 1 10 }) =
      .ok (((250 : Int) + 10) % 256) ∧
    Except.map (fun t => t.reg.getD (0 : Int).toNat 0)
      (step { CPU.init with
        ram := (((List.replicate 256 0).set 0 MUL).set 1 0).set 2 1,
        reg := ((List.replicate 8 0).set 0 16).set 1 32 }) =
      .ok (((16 : Int) * 32) % 256) ∧
    Except.map (fun t => t.reg.getD (0 : Int).toNat 0)
      (step { CPU.init with
        ram := ((List.replicate 256 0).set 0 INC).set 1 0,
        reg := (List.replicate 8 0).set 0 255 }) =
      .ok (((255 : Int) + 1) % 256) ∧
    Except.map (fun t => t.reg.getD (0 : Int).toNat 0)
      (step { CPU.init with
        ram := ((List.replicate 256 0).set 0 DEC).set 1 0 }) =
      .ok (((0 : Int) - 1) % 256) := by
  refine ⟨?_, ?_, ?_, ?_⟩
  · exact claim_C1_alu_masking.1 _ 0 1 250 10 (by decide) (by decide) (by decide)
      (by decide) (by decide) (by decide) (by decide) (by decide) (by decide)
      (by decide) (by decide) (by decide) (by decide)
  · exact claim_C1_alu_masking.2.1 _ 0 1 16 32 (by decide) (by decide) (by decide)
      (by decide) (by decide) (by decide) (by decide) (by decide) (by decide)
      (by decide) (by decide) (by decide) (by decide)
  · exact claim_C1_alu_masking.2.2.1 _ 0 0 255 (by decide) (by decide) (by decide)
      (by decide) (by decide) (by decide) (by decide) (by decide) (by decide)
      (by decide)
  · exact claim_C1_alu_masking.2.2.2 _ 0 0 0 (by decide) (by decide) (by decide)
      (by decide) (by decide) (by decide) (by decide) (by decide) (by decide)
      (by decide)

/-- Inverting a successful dict lookup: the key/handler pair is one of the
34 registered entries. -/
theorem instruction_table_mem {op : Int} {h : Handler}
    (ht : instruction_table op = some h) : (op, h) ∈ opPairs := by
  unfold instruction_table at ht
  cases hf : opPairs.find? (fun p => p.1 == op) with
  | none => rw [hf] at ht; exact Option.noConfusion ht
  | some p =>
    rw [hf] at ht
    have hmem := List.mem_of_find?_eq_some hf
    have hkey := (List.find?_eq_some.mp hf).1
    have hp2 : p.2 = h := by
      simpa [Option.map] using ht
    have hp1 : p.1 = op := by simpa using hkey
    have : p = (op, h) := by
      cases p
      simp only at hp1 hp2
      rw [hp1, hp2]
    rw [this] at hmem
    exact hmem

/-- Every registered opcode whose `sets_pc` bit is clear is wired to a
handler that never assigns `self.pc`. -/
theorem opPairs_sets_pc_pcKeeps :
    ∀ p ∈ opPairs, sets_pc p.1 = false → pcKeeps p.2 = true := by decide

theorem push_stack_state {s : CPU} {v : Int} {s' : CPU} (h : push_stack s v = .ok s') :
    s'.pc = s.pc ∧ s'.running = s.running ∧ s'.flags = s.flags ∧ s'.out = s.out := by
  simp only [push_stack, bind, Except.bind, pure, Except.pure] at h
  repeat' split at h
  all_goals try exact Except.noConfusion h
  injection h with h2
  subst h2
  exact ⟨rfl, rfl, rfl, rfl⟩

theorem pop_stack_state {s : CPU} {r : Int × CPU} (h : pop_stack s = .ok r) :
    r.2.pc = s.pc ∧ r.2.ram = s.ram ∧ r.2.running = s.running ∧
      r.2.flags = s.flags ∧ r.2.out = s.out := by
  simp only [pop_stack, bind, Except.bind, pure, Except.pure] at h
  repeat' split at h
  all_goals try exact Except.noConfusion h
  injection h with h2
  subst h2
  exact ⟨rfl, rfl, rfl, rfl, rfl⟩

theorem alu_mask_state {a : Int} {s s' : CPU} (h : alu_mask a s = .ok s') :
    s'.pc = s.pc ∧ s'.ram = s.ram ∧ s'.running = s.running ∧
      s'.flags = s.flags ∧ s'.out = s.out := by
  simp only [alu_mask, bind, Except.bind, pure, Except.pure] at h
  repeat' split at h
  all_goals try exact Except.noConfusion h
  injection h with h2
  subst h2
  exact ⟨rfl, rfl, rfl, rfl, rfl⟩

/-- Handlers not marked as PC-setting leave the program counter unchanged
when they succeed. -/
theorem applyHandler_pc {h : Handler} {op a b : Int} {s s' : CPU}
    (hk : pcKeeps h = true) (happ : applyHandler h op a b s = .ok s') : s'.pc = s.pc := by
  cases h with
  | call => exact Bool.noConfusion hk
  | ret => exact Bool.noConfusion hk
  | jmp => exact Bool.noConfusion hk
  | jeq => exact Bool.noConfusion hk
  | jne => exact Bool.noConfusion hk
  | unimplemented =>
    simp only [applyHandler, unimplemented_op] at happ
    exact Except.noConfusion happ
  | push =>
    simp only [applyHandler, op_push, bind, Except.bind, pure, Except.pure] at happ
    cases hg : pyGet s.reg a with
    | error e =>
      simp only [hg] at happ
      exact Except.noConfusion happ
    | ok v =>
      simp only [hg] at happ
      exact (push_stack_state happ).1
  | pop =>
    simp only [applyHandler, op_pop, bind, Except.bind, pure, Except.pure] at happ
    cases hps : pop_stack s with
    | error e =>
      simp only [hps] at happ
      exact Except.noConfusion happ
    | ok r =>
      simp only [hps] at happ
      cases hset : pySet r.2.reg a r.1 with
      | error e =>
        simp only [hset] at happ
        exact Except.noConfusion happ
      | ok rg =>
        simp only [hset] at happ
        injection happ with h2
        subst h2
        exact (pop_stack_state hps).1
  | nop =>
    simp only [applyHandler, op_nop, pure, Except.pure] at happ
    injection happ with h2
    subst h2
    rfl
  | hlt =>
    simp only [applyHandler, op_hlt, pure, Except.pure] at happ
    injection happ with h2
    subst h2
    rfl
  | ldi =>
    simp only [applyHandler, op_ldi, bind, Except.bind, pure, Except.pure] at happ
    repeat' split at happ
    all_goals try exact Except.noConfusion happ
    all_goals injection happ with h2
    all_goals subst h2
    all_goals rfl
  | ld =>
    simp only [applyHandler, op_ld, bind, Except.bind, pure, Except.pure] at happ
    repeat' split at happ
    all_goals try exact Except.noConfusion happ
    all_goals injection happ with h2
    all_goals subst h2
    all_goals rfl
  | add =>
    simp only [applyHandler, op_add, bind, Except.bind, pure, Except.pure] at happ
    repeat' split at happ
    all_goals try exact Except.noConfusion happ
    all_goals injection happ with h2
    all_goals subst h2
    all_goals rfl
  | mul =>
    simp only [applyHandler, op_mul, bind, Except.bind, pure, Except.pure] at happ
    repeat' split at happ
    all_goals try exact Except.noConfusion happ
    all_goals injection happ with h2
    all_goals subst h2
    all_goals rfl
  | inc =>
    simp only [applyHandler, op_inc, bind, Except.bind, pure, Except.pure] at happ
    repeat' split at happ
    all_goals try exact Except.noConfusion happ
    all_goals injection happ with h2
    all_goals subst h2
    all_goals rfl
  | dec =>
    simp only [applyHandler, op_dec, bind, Except.bind, pure, Except.pure] at happ
    repeat' split at happ
    all_goals try exact Except.noConfusion happ
    all_goals injection happ with h2
    all_goals subst h2
    all_goals rfl
  | prn =>
    simp only [applyHandler, op_prn, bind, Except.bind, pure, Except.pure] at happ
    repeat' split at happ
    all_goals try exact Except.noConfusion happ
    all_goals injection happ with h2
    all_goals subst h2
    all_goals rfl
  | pra =>
    simp only [applyHandler, op_pra, bind, Except.bind, pure, Except.pure] at happ
    repeat' split at happ
    all_goals try exact Except.noConfusion happ
    all_goals injection happ with h2
    all_goals subst h2
    all_goals rfl
  | cmp =>
    simp only [applyHandler, op_cmp, bind, Except.bind, pure, Except.pure] at happ
    repeat' split at happ
    all_goals try exact Except.noConfusion happ
    all_goals injection happ with h2
    all_goals subst h2
    all_goals rfl

/-- Inverting a successful `stepCore`: the three fetches succeeded, the
table lookup succeeded, the handler succeeded, and the ALU mask was applied
exactly when the `is_alu` bit was set. -/
theorem stepCore_ok_elim {s s2 : CPU} {op : Int}
    (hc : stepCore s = .ok (s2, op)) :
    ∃ a b h s1,
      pyGet s.ram s.pc = .ok op ∧
      pyGet s.ram (s.pc + 1) = .ok a ∧
      pyGet s.ram (s.pc + 2) = .ok b ∧
      instruction_table op = some h ∧
      applyHandler h op a b s = .ok s1 ∧
      ((is_alu op = true ∧ alu_mask a s1 = .ok s2) ∨ (is_alu op = false ∧ s2 = s1)) := by
  simp only [stepCore, bind, Except.bind, pure, Except.pure] at hc
  cases hop : pyGet s.ram s.pc with
  | error e =>
    simp only [hop] at hc
    exact Except.noConfusion hc
  | ok opv =>
    simp only [hop] at hc
    cases ha : pyGet s.ram (s.pc + 1) with
    | error e =>
      simp only [ha] at hc
      exact Except.noConfusion hc
    | ok a =>
      simp only [ha] at hc
      cases hb : pyGet s.ram (s.pc + 2) with
      | error e =>
        simp only [hb] at hc
        exact Except.noConfusion hc
      | ok b =>
        simp only [hb] at hc
        cases ht : instruction_table opv with
        | none =>
          simp only [ht] at hc
          exact Except.noConfusion hc
        | some hh =>
          simp only [ht] at hc
          cases happ : applyHandler hh opv a b s with
          | error e =>
            simp only [happ] at hc
            exact Except.noConfusion hc
          | ok s1 =>
            simp only [happ] at hc
            by_cases halu : is_alu opv = true
            · simp only [halu, if_true] at hc
              cases hm : alu_mask a s1 with
              | error e =>
                simp only [hm] at hc
                exact Except.noConfusion hc
              | ok s2' =>
                simp only [hm] at hc
                injection hc with hc1
                have h1 : s2' = s2 := congrArg Prod.fst hc1
                have h2 : opv = op := congrArg Prod.snd hc1
                subst h2
                exact ⟨a, b, hh, s1, rfl, rfl, rfl, ht, happ, Or.inl ⟨halu, h1 ▸ hm⟩⟩
            · simp only [halu, Bool.false_eq_true, if_false] at hc
              injection hc with hc1
              have h1 : s1 = s2 := congrArg Prod.fst hc1
              have h2 : opv = op := congrArg Prod.snd hc1
              subst h2
              exact ⟨a, b, hh, s1, rfl, rfl, rfl, ht, happ,
                Or.inr ⟨by simpa using halu, h1.symm⟩⟩

/-- The three decode fields of every byte, computed bit by bit. -/
theorem decode_bits_fin :
    ∀ m : Fin 256,
      op_size (Int.ofNat m.1) = Int.ofNat (m.1 / 64) ∧
      is_alu (Int.ofNat m.1) = m.1.testBit 5 ∧
      sets_pc (Int.ofNat m.1) = m.1.testBit 4 := by decide

/-- C2: the three format fields come from the opcode byte alone by fixed bit
masks — `operand_count` is the two top bits (the byte divided by 64),
`is_alu` is bit 5, `sets_pc` is bit 4 — and after the handler runs the PC
advances by exactly `1 + operand_count` from the pre-instruction PC unless
the `sets_pc` bit is set, in which case the engine performs no advance at
all (the step result is exactly the post-handler, post-mask state). -/
theorem claim_C2_decode_and_advance :
    (∀ op : Int, 0 ≤ op → op < 256 →
      op_size op = Int.ofNat (op.toNat / 64) ∧
      is_alu op = op.toNat.testBit 5 ∧
      sets_pc op = op.toNat.testBit 4) ∧
    (∀ (s s2 : CPU) (op : Int), stepCore s = .ok (s2, op) → sets_pc op = false →
      s2.pc = s.pc ∧ step s = .ok { s2 with pc := s.pc + 1 + op_size op }) ∧
    (∀ (s s2 : CPU) (op : Int), stepCore s = .ok (s2, op) → sets_pc op = true →
      step s = .ok s2) := by
  refine ⟨?_, ?_, ?_⟩
  · intro op h0 h1
    obtain ⟨m, hm⟩ : ∃ m : Nat, op = Int.ofNat m :=
      ⟨op.toNat, (Int.toNat_of_nonneg h0).symm⟩
    subst hm
    have hm256 : m < 256 := by
      simp only [Int.ofNat_eq_natCast] at h1
      omega
    have := decode_bits_fin ⟨m, hm256⟩
    simpa using this
  · intro s s2 op hc hspc
    obtain ⟨a, b, h, s1, hop, ha, hb, ht, happ, hmask⟩ := stepCore_ok_elim hc
    have hk : pcKeeps h = true :=
      opPairs_sets_pc_pcKeeps (op, h) (instruction_table_mem ht) hspc
    have h1pc : s1.pc = s.pc := applyHandler_pc hk happ
    have h2pc : s2.pc = s.pc := by
      rcases hmask with ⟨_, hm⟩ | ⟨_, hs⟩
      · rw [(alu_mask_state hm).1, h1pc]
      · rw [hs]; exact h1pc
    refine ⟨h2pc, ?_⟩
    simp only [step, bind, Except.bind, pure, Except.pure, hc, hspc,
      Bool.false_eq_true, if_false]
    rw [h2pc]
  · intro s s2 op hc hspc
    simp only [step, bind, Except.bind, pure, Except.pure, hc, hspc, if_true]

/-- Witness for C2: the decode triple of `ADD`; an `LDI` step (2 operands,
no `sets_pc`) advancing PC by 3 with the handler leaving PC alone; and a
`JMP` step (`sets_pc`) whose result is exactly the handler's state. -/
theorem claim_C2_decode_and_advance_witness :
    (op_size ADD = Int.ofNat (ADD.toNat / 64) ∧
      is_alu ADD = ADD.toNat.testBit 5 ∧
      sets_pc ADD = ADD.toNat.testBit 4) ∧
    (({ CPU.init with
        ram := ((List.replicate 256 0).set 0 LDI).set 2 8,
        reg := (List.replicate 8 0).set 0 8 } : CPU).pc =
      ({ CPU.init with
        ram := ((List.replicate 256 0).set 0 LDI).set 2 8 } : CPU).pc ∧
      step { CPU.init with
        ram := ((List.replicate 256 0).set 0 LDI).set 2 8 } =
        .ok { CPU.init with
          ram := ((List.replicate 256 0).set 0 LDI).set 2 8,
          reg := (List.replicate 8 0).set 0 8,
          pc := ({ CPU.init with
            ram := ((List.replicate 256 0).set 0 LDI).set 2 8 } : CPU).pc + 1 +
              op_size LDI }) ∧
    (step { CPU.init with
        ram := (List.replicate 256 0).set 0 JMP,
        reg := (List.replicate 8 0).set 0 42 } =
      .ok { CPU.init with
        ram := (List.replicate 256 0).set 0 JMP,
        reg := (List.replicate 8 0).set 0 42,
        pc := 42 }) := by
  refine ⟨?_, ?_, ?_⟩
  · exact claim_C2_decode_and_advance.1 ADD (by decide) (by decide)
  · exact claim_C2_decode_and_advance.2.1 _ _ LDI (by decide) (by decide)
  · exact claim_C2_decode_and_advance.2.2 _ _ JMP (by decide) (by decide)


theorem pyOr_0_1 : pyOr 0 1 = 1 := by decide

theorem pyOr_0_2 : pyOr 0 2 = 2 := by decide

theorem pyOr_0_4 : pyOr 0 4 = 4 := by decide

theorem pyAnd_1_1 : pyAnd 1 1 = 1 := by decide

/-- A full characterization of one `CMP` step: the flags register is
recomputed from scratch by the three-way comparison (the ALU mask also
rewrites `reg[A]` to `reg[A] & 0xFF`, and PC advances by 3). -/
theorem step_cmp_full (s : CPU) (A B x y : Int)
    (hreg : s.reg.length = 8) (hram : s.ram.length = 256)
    (hpc0 : 0 ≤ s.pc) (hpc1 : s.pc ≤ 253)
    (hop : s.ram.getD s.pc.toNat 0 = CMP)
    (hA : s.ram.getD (s.pc + 1).toNat 0 = A)
    (hB : s.ram.getD (s.pc + 2).toNat 0 = B)
    (hA0 : 0 ≤ A) (hA1 : A < 8) (hB0 : 0 ≤ B) (hB1 : B < 8)
    (hx : s.reg.getD A.toNat 0 = x) (hy : s.reg.getD B.toNat 0 = y) :
    step s = .ok { s with
      reg := s.reg.set A.toNat (pyAnd x 255),
      flags := if x = y then 1 else if x > y then 2 else 4,
      pc := s.pc + 3 } := by
  have h1 : pyGet s.ram s.pc = .ok CMP := by
    rw [pyGet_ok _ _ hpc0 (by omega), hop]
  have h2 : pyGet s.ram (s.pc + 1) = .ok A := by
    rw [pyGet_ok _ _ (by omega) (by omega), hA]
  have h3 : pyGet s.ram (s.pc + 2) = .ok B := by
    rw [pyGet_ok _ _ (by omega) (by omega), hB]
  rw [step_eq s CMP A B .cmp h1 h2 h3 table_CMP]
  have hga : pyGet s.reg A = .ok x := by rw [pyGet_ok _ _ hA0 (by omega), hx]
  have hgb : pyGet s.reg B = .ok y := by rw [pyGet_ok _ _ hB0 (by omega), hy]
  have hsa : pySet s.reg A (pyAnd x 255) = .ok (s.reg.set A.toNat (pyAnd x 255)) :=
    pySet_ok _ _ _ hA0 (by omega)
  simp only [applyHandler, op_cmp, hga, hgb, bind, Except.bind, pure, Except.pure,
    is_alu_CMP, sets_pc_CMP, if_true, Bool.false_eq_true, if_false,
    alu_mask, hsa, op_size_CMP]
  rcases lt_trichotomy x y with hlt | heq | hgt
  · simp only [ne_of_lt hlt, if_false, not_lt.mpr (le_of_lt hlt), hlt, if_true,
      pyOr_0_4, lt_irrefl]
    rw [show s.pc + 1 + 2 = s.pc + 3 from by ring]
  · subst heq
    simp only [if_pos rfl, pyOr_0_1, lt_irrefl, if_false]
    rw [show s.pc + 1 + 2 = s.pc + 3 from by ring]
    simp
  · simp only [ne_of_gt hgt, if_false, hgt, if_true, pyOr_0_2,
      not_lt.mpr (le_of_lt hgt), lt_irrefl]
    rw [show s.pc + 1 + 2 = s.pc + 3 from by ring]


/-- C3: Compare reads two register operands, clears the flags register in
full and recomputes it from the three-way comparison (setting only the
Equal bit when the values are equal); with the Equal bit set, Jump-if-Equal
sets PC to the target register's value while Jump-if-Not-Equal falls
through by advancing PC by exactly 2. -/
theorem claim_C3_cmp_branch :
    (∀ (s : CPU) (A B x y : Int),
      s.reg.length = 8 → s.ram.length = 256 →
      0 ≤ s.pc → s.pc ≤ 253 →
      s.ram.getD s.pc.toNat 0 = CMP →
      s.ram.getD (s.pc + 1).toNat 0 = A →
      s.ram.getD (s.pc + 2).toNat 0 = B →
      0 ≤ A → A < 8 → 0 ≤ B → B < 8 →
      s.reg.getD A.toNat 0 = x → s.reg.getD B.toNat 0 = y →
      step s = .ok { s with
        reg := s.reg.set A.toNat (pyAnd x 255),
        flags := if x = y then 1 else if x > y then 2 else 4,
        pc := s.pc + 3 }) ∧
    (∀ (s : CPU) (A B t : Int),
      s.reg.length = 8 → s.ram.length = 256 →
      0 ≤ s.pc → s.pc ≤ 253 →
      s.ram.getD s.pc.toNat 0 = JEQ →
      s.ram.getD (s.pc + 1).toNat 0 = A →
      s.ram.getD (s.pc + 2).toNat 0 = B →
      0 ≤ A → A < 8 →
      s.reg.getD A.toNat 0 = t →
      s.flags = 1 →
      Except.map (fun u => u.pc) (step s) = .ok t) ∧
    (∀ (s : CPU) (A B : Int),
      s.reg.length = 8 → s.ram.length = 256 →
      0 ≤ s.pc → s.pc ≤ 253 →
      s.ram.getD s.pc.toNat 0 = JNE →
      s.ram.getD (s.pc + 1).toNat 0 = A →
      s.ram.getD (s.pc + 2).toNat 0 = B →
      s.flags = 1 →
      Except.map (fun u => u.pc) (step s) = .ok (s.pc + 2)) := by
  refine ⟨?_, ?_, ?_⟩
  · intro s A B x y hreg hram hpc0 hpc1 hop hA hB hA0 hA1 hB0 hB1 hx hy
    exact step_cmp_full s A B x y hreg hram hpc0 hpc1 hop hA hB hA0 hA1 hB0 hB1 hx hy
  · intro s A B t hreg hram hpc0 hpc1 hop hA hB hA0 hA1 ht hfl
    have h1 : pyGet s.ram s.pc = .ok JEQ := by
      rw [pyGet_ok _ _ hpc0 (by omega), hop]
    have h2 : pyGet s.ram (s.pc + 1) = .ok A := by
      rw [pyGet_ok _ _ (by omega) (by omega), hA]
    have h3 : pyGet s.ram (s.pc + 2) = .ok B := by
      rw [pyGet_ok _ _ (by omega) (by omega), hB]
    rw [step_eq s JEQ A B .jeq h1 h2 h3 table_JEQ]
    have hga : pyGet s.reg A = .ok t := by rw [pyGet_ok _ _ hA0 (by omega), ht]
    have hcond : pyAnd s.flags 1 ≠ 0 := by
      rw [hfl, pyAnd_1_1]
      decide
    simp only [applyHandler, op_jeq, if_pos hcond, hga, bind, Except.bind, pure,
      Except.pure, is_alu_JEQ, sets_pc_JEQ, if_true, Bool.false_eq_true, if_false,
      Except.map]
  · intro s A B hreg hram hpc0 hpc1 hop hA hB hfl
    have h1 : pyGet s.ram s.pc = .ok JNE := by
      rw [pyGet_ok _ _ hpc0 (by omega), hop]
    have h2 : pyGet s.ram (s.pc + 1) = .ok A := by
      rw [pyGet_ok _ _ (by omega) (by omega), hA]
    have h3 : pyGet s.ram (s.pc + 2) = .ok B := by
      rw [pyGet_ok _ _ (by omega) (by omega), hB]
    rw [step_eq s JNE A B .jne h1 h2 h3 table_JNE]
    have hcond : ¬ pyAnd s.flags 1 = 0 := by
      rw [hfl, pyAnd_1_1]
      decide
    simp only [applyHandler, op_jne, if_neg hcond, bind, Except.bind, pure,
      Except.pure, is_alu_JNE, sets_pc_JNE, if_true, Bool.false_eq_true, if_false,
      Except.map]

/-- Witness for C3: comparing two equal registers yields flags = 1, a
subsequent `JEQ` jumps to the target register value 77, a subsequent `JNE`
falls through from PC 0 to PC 2. -/
theorem claim_C3_cmp_branch_witness :
    step { CPU.init with
      ram := ((List.replicate 256 0).set 0 CMP).set 2 1,
      reg := ((List.replicate 8 0).set 0 5).set 1 5 } =
      .ok { CPU.init with
        ram := ((List.replicate 256 0).set 0 CMP).set 2 1,
        reg := (((List.replicate 8 0).set 0 5).set 1 5).set 0 (pyAnd 5 255),
        flags := if (5 : Int) = 5 then 1 else if (5 : Int) > 5 then 2 else 4,
        pc := 3 } ∧
    Except.map (fun u => u.pc)
      (step { CPU.init with
        ram := (List.replicate 256 0).set 0 JEQ,
        reg := (List.replicate 8 0).set 0 77,
        flags := 1 }) = .ok 77 ∧
    Except.map (fun u => u.pc)
      (step { CPU.init with
        ram := (List.replicate 256 0).set 0 JNE,
        flags := 1 }) = .ok 2 := by
  refine ⟨?_, ?_, ?_⟩
  · exact claim_C3_cmp_branch.1 _ 0 1 5 5 (by decide) (by decide) (by decide)
      (by decide) (by decide) (by decide) (by decide) (by decide) (by decide)
      (by decide) (by decide) (by decide) (by decide)
  · exact claim_C3_cmp_branch.2.1 _ 0 0 77 (by decide) (by decide) (by decide)
      (by decide) (by decide) (by decide) (by decide) (by decide) (by decide)
      (by decide) (by decide)
  · exact claim_C3_cmp_branch.2.2 _ 0 0 (by decide) (by decide) (by decide)
      (by decide) (by decide) (by decide) (by decide) (by decide)

/-- C10: after every execution of Compare, regardless of the two register
values, the flags register is exactly one of 1 (Equal), 2 (Greater),
4 (Less): exactly one flag bit set, all other bits clear. -/
theorem claim_C10_cmp_flags_one_hot :
    ∀ (s : CPU) (A B x y : Int),
      s.reg.length = 8 → s.ram.length = 256 →
      0 ≤ s.pc → s.pc ≤ 253 →
      s.ram.getD s.pc.toNat 0 = CMP →
      s.ram.getD (s.pc + 1).toNat 0 = A →
      s.ram.getD (s.pc + 2).toNat 0 = B →
      0 ≤ A → A < 8 → 0 ≤ B → B < 8 →
      s.reg.getD A.toNat 0 = x → s.reg.getD B.toNat 0 = y →
      Except.map (fun t => t.flags) (step s) = .ok 1 ∨
      Except.map (fun t => t.flags) (step s) = .ok 2 ∨
      Except.map (fun t => t.flags) (step s) = .ok 4 := by
  intro s A B x y hreg hram hpc0 hpc1 hop hA hB hA0 hA1 hB0 hB1 hx hy
  have h := step_cmp_full s A B x y hreg hram hpc0 hpc1 hop hA hB hA0 hA1 hB0 hB1 hx hy
  rcases lt_trichotomy x y with hlt | heq | hgt
  · right; right
    simp [h, Except.map, ne_of_lt hlt, not_lt.mpr (le_of_lt hlt), hlt]
  · left
    simp [h, Except.map, heq]
  · right; left
    simp [h, Except.map, ne_of_gt hgt, hgt]

/-- Witness for C10 at registers holding 3 and 9: the Less flag alone. -/
theorem claim_C10_cmp_flags_one_hot_witness :
    Except.map (fun t => t.flags)
      (step { CPU.init with
        ram := ((List.replicate 256 0).set 0 CMP).set 2 1,
        reg := ((List.replicate 8 0).set 0 3).set 1 9 }) = .ok 1 ∨
    Except.map (fun t => t.flags)
      (step { CPU.init with
        ram := ((List.replicate 256 0).set 0 CMP).set 2 1,
        reg := ((List.replicate 8 0).set 0 3).set 1 9 }) = .ok 2 ∨
    Except.map (fun t => t.flags)
      (step { CPU.init with
        ram := ((List.replicate 256 0).set 0 CMP).set 2 1,
        reg := ((List.replicate 8 0).set 0 3).set 1 9 }) = .ok 4 :=
  claim_C10_cmp_flags_one_hot _ 0 1 3 9 (by decide) (by decide) (by decide)
    (by decide) (by decide) (by decide) (by decide) (by decide) (by decide)
    (by decide) (by decide) (by decide) (by decide)


/-- C4 (amended): with an in-range non-wrapping stack pointer
(`1 ≤ SP ≤ 256`) and a destination register other than register 7,
`op_push` immediately followed by `op_pop` restores `reg[R']` to the value
`reg[R]` held before the push and restores SP (register 7) to its pre-push
value. -/
theorem claim_C4_push_pop_roundtrip (s : CPU) (R R' sp v : Int)
    (hreg : s.reg.length = 8) (hram : s.ram.length = 256)
    (hR0 : 0 ≤ R) (hR1 : R < 8) (hR'0 : 0 ≤ R') (hR'1 : R' < 8)
    (hR'7 : R' ≠ 7)
    (hsp : s.reg.getD 7 0 = sp)
    (hsp1 : 1 ≤ sp) (hsp2 : sp ≤ 256)
    (hv : s.reg.getD R.toNat 0 = v) :
    Except.map (fun t => (t.reg.getD R'.toNat 0, t.reg.getD 7 0))
      ((op_push PUSH R 0 s).bind (op_pop POP R' 0)) = .ok (v, sp) := by
  have hSPtoNat : SP.toNat = 7 := rfl
  have hg1 : pyGet s.reg R = .ok v := by rw [pyGet_ok _ _ hR0 (by omega), hv]
  have hgsp : pyGet s.reg SP = .ok sp := by
    rw [pyGet_ok _ _ (by norm_num [SP]) (by norm_num [SP]; omega), hSPtoNat, hsp]
  have hssp : pySet s.reg SP (sp - 1) = .ok (s.reg.set 7 (sp - 1)) := by
    rw [pySet_ok _ _ _ (by norm_num [SP]) (by norm_num [SP]; omega), hSPtoNat]
  have hsram : pySet s.ram (sp - 1) v = .ok (s.ram.set (sp - 1).toNat v) :=
    pySet_ok _ _ _ (by omega) (by omega)
  have hlen1 : (s.reg.set 7 (sp - 1)).length = 8 := by rw [List.length_set, hreg]
  have hgsp1 : pyGet (s.reg.set 7 (sp - 1)) SP = .ok (sp - 1) := by
    rw [pyGet_ok _ _ (by norm_num [SP]) (by rw [hlen1]; norm_num [SP]), hSPtoNat,
      getD_set_self _ _ _ (by omega)]
  have hgram : pyGet (s.ram.set (sp - 1).toNat v) (sp - 1) = .ok v := by
    rw [pyGet_ok _ _ (by omega) (by rw [List.length_set]; omega),
      getD_set_self _ _ _ (by rw [hram]; omega)]
  have hssp2 : pySet (s.reg.set 7 (sp - 1)) SP (sp - 1 + 1) =
      .ok ((s.reg.set 7 (sp - 1)).set 7 (sp - 1 + 1)) := by
    rw [pySet_ok _ _ _ (by norm_num [SP]) (by rw [hlen1]; norm_num [SP]), hSPtoNat]
  have hlen2 : ((s.reg.set 7 (sp - 1)).set 7 (sp - 1 + 1)).length = 8 := by
    rw [List.length_set, hlen1]
  have hsR' : pySet ((s.reg.set 7 (sp - 1)).set 7 (sp - 1 + 1)) R' v =
      .ok (((s.reg.set 7 (sp - 1)).set 7 (sp - 1 + 1)).set R'.toNat v) := by
    rw [pySet_ok _ _ _ hR'0 (by rw [hlen2]; omega)]
  simp only [op_push, op_pop, push_stack, pop_stack, hg1, hgsp, hssp, hsram,
    hgsp1, hgram, hssp2, hsR', bind, Except.bind, pure, Except.pure, Except.map]
  have hfin1 : (((s.reg.set 7 (sp - 1)).set 7 (sp - 1 + 1)).set R'.toNat v).getD
      R'.toNat 0 = v :=
    getD_set_self _ _ _ (by rw [hlen2]; omega)
  have hne : (7 : Nat) ≠ R'.toNat := by omega
  have hfin2 : (((s.reg.set 7 (sp - 1)).set 7 (sp - 1 + 1)).set R'.toNat v).getD
      7 0 = sp := by
    rw [getD_set_ne _ _ _ _ hne, getD_set_self _ _ _ (by rw [hlen1]; omega)]
    omega
  rw [hfin1, hfin2]

/-- Counterexample to C4 as stated: popping into register 7 overwrites the
stack pointer with the popped value, so SP is not restored. With
`reg = [5,0,0,0,0,0,0,10]`, `Push(R0); Pop(R7)` leaves `reg[7] = 5`, not its
pre-push value 10. -/
theorem claim_C4_counterexample :
    Except.map (fun t => t.reg.getD 7 0)
      ((op_push PUSH 0 0
          { CPU.init with reg := ((List.replicate 8 0).set 0 5).set 7 10 }).bind
        (op_pop POP 7 0)) = .ok 5 ∧ (5 : Int) ≠ 10 := by
  exact ⟨by decide, by decide⟩

/-- Witness for C4 (amended) at a concrete machine: pushing `reg[0] = 5`
with SP 10 and popping into register 1 restores SP and moves the value. -/
theorem claim_C4_push_pop_roundtrip_witness :
    Except.map (fun t => (t.reg.getD (1 : Int).toNat 0, t.reg.getD 7 0))
      ((op_push PUSH 0 0
          { CPU.init with reg := ((List.replicate 8 0).set 0 5).set 7 10 }).bind
        (op_pop POP 1 0)) = .ok (5, 10) :=
  claim_C4_push_pop_roundtrip _ 0 1 10 5 (by decide) (by decide) (by decide)
    (by decide) (by decide) (by decide) (by decide) (by decide) (by decide)
    (by decide) (by decide)


/-- One `CALL` step: pushes the return address `pc + 2` at `SP - 1`,
decrements SP, and sets PC to the operand register's value with no further
advance. -/
theorem step_call (s : CPU) (A sp t : Int)
    (hreg : s.reg.length = 8) (hram : s.ram.length = 256)
    (hpc0 : 0 ≤ s.pc) (hpc1 : s.pc ≤ 253)
    (hop : s.ram.getD s.pc.toNat 0 = CALL)
    (hA : s.ram.getD (s.pc + 1).toNat 0 = A)
    (hA0 : 0 ≤ A) (hA1 : A < 8) (hA7 : A ≠ 7)
    (hsp : s.reg.getD 7 0 = sp) (hsp1 : 1 ≤ sp) (hsp2 : sp ≤ 256)
    (ht : s.reg.getD A.toNat 0 = t) :
    step s = .ok { s with
      reg := s.reg.set 7 (sp - 1),
      ram := s.ram.set (sp - 1).toNat (s.pc + 2),
      pc := t } := by
  have hSPtoNat : SP.toNat = 7 := rfl
  have h1 : pyGet s.ram s.pc = .ok CALL := by
    rw [pyGet_ok _ _ hpc0 (by omega), hop]
  have h2 : pyGet s.ram (s.pc + 1) = .ok A := by
    rw [pyGet_ok _ _ (by omega) (by omega), hA]
  have h3 : pyGet s.ram (s.pc + 2) = .ok (s.ram.getD (s.pc + 2).toNat 0) :=
    pyGet_ok _ _ (by omega) (by omega)
  rw [step_eq s CALL A _ .call h1 h2 h3 table_CALL]
  have hgsp : pyGet s.reg SP = .ok sp := by
    rw [pyGet_ok _ _ (by norm_num [SP]) (by norm_num [SP]; omega), hSPtoNat, hsp]
  have hssp : pySet s.reg SP (sp - 1) = .ok (s.reg.set 7 (sp - 1)) := by
    rw [pySet_ok _ _ _ (by norm_num [SP]) (by norm_num [SP]; omega), hSPtoNat]
  have hsram : pySet s.ram (sp - 1) (s.pc + 2) =
      .ok (s.ram.set (sp - 1).toNat (s.pc + 2)) :=
    pySet_ok _ _ _ (by omega) (by omega)
  have hlen1 : (s.reg.set 7 (sp - 1)).length = 8 := by rw [List.length_set, hreg]
  have hgt : pyGet (s.reg.set 7 (sp - 1)) A = .ok t := by
    rw [pyGet_ok _ _ hA0 (by rw [hlen1]; omega),
      getD_set_ne _ _ _ _ (by omega), ht]
  simp only [applyHandler, op_call, push_stack, hgsp, hssp, hsram, hgt,
    bind, Except.bind, pure, Except.pure, is_alu_CALL, sets_pc_CALL,
    Bool.false_eq_true, if_false, if_true]

/-- One `RET` step: pops the value at `SP` into PC and increments SP. -/
theorem step_ret (s : CPU) (sp v : Int)
    (hreg : s.reg.length = 8) (hram : s.ram.length = 256)
    (hpc0 : 0 ≤ s.pc) (hpc1 : s.pc ≤ 253)
    (hop : s.ram.getD s.pc.toNat 0 = RET)
    (hsp : s.reg.getD 7 0 = sp) (hsp0 : 0 ≤ sp) (hsp2 : sp ≤ 255)
    (hv : s.ram.getD sp.toNat 0 = v) :
    step s = .ok { s with reg := s.reg.set 7 (sp + 1), pc := v } := by
  have hSPtoNat : SP.toNat = 7 := rfl
  have h1 : pyGet s.ram s.pc = .ok RET := by
    rw [pyGet_ok _ _ hpc0 (by omega), hop]
  have h2 : pyGet s.ram (s.pc + 1) = .ok (s.ram.getD (s.pc + 1).toNat 0) :=
    pyGet_ok _ _ (by omega) (by omega)
  have h3 : pyGet s.ram (s.pc + 2) = .ok (s.ram.getD (s.pc + 2).toNat 0) :=
    pyGet_ok _ _ (by omega) (by omega)
  rw [step_eq s RET _ _ .ret h1 h2 h3 table_RET]
  have hgsp : pyGet s.reg SP = .ok sp := by
    rw [pyGet_ok _ _ (by norm_num [SP]) (by norm_num [SP]; omega), hSPtoNat, hsp]
  have hgv : pyGet s.ram sp = .ok v := by
    rw [pyGet_ok _ _ hsp0 (by omega), hv]
  have hssp : pySet s.reg SP (sp + 1) = .ok (s.reg.set 7 (sp + 1)) := by
    rw [pySet_ok _ _ _ (by norm_num [SP]) (by norm_num [SP]; omega), hSPtoNat]
  simp only [applyHandler, op_ret, pop_stack, hgsp, hgv, hssp,
    bind, Except.bind, pure, Except.pure, is_alu_RET, sets_pc_RET,
    Bool.false_eq_true, if_false, if_true]

/-- C5: Call pushes the address of the instruction after the Call (PC+2)
onto the stack and sets PC to the operand register's value with no default
advance; Return pops the top of stack into PC; composing the two from a
Call site resumes execution at `call_site + 2`. -/
theorem claim_C5_call_ret :
    (∀ (s : CPU) (A sp t : Int),
      s.reg.length = 8 → s.ram.length = 256 →
      0 ≤ s.pc → s.pc ≤ 253 →
      s.ram.getD s.pc.toNat 0 = CALL →
      s.ram.getD (s.pc + 1).toNat 0 = A →
      0 ≤ A → A < 8 → A ≠ 7 →
      s.reg.getD 7 0 = sp → 1 ≤ sp → sp ≤ 256 →
      s.reg.getD A.toNat 0 = t →
      step s = .ok { s with
        reg := s.reg.set 7 (sp - 1),
        ram := s.ram.set (sp - 1).toNat (s.pc + 2),
        pc := t }) ∧
    (∀ (s : CPU) (sp v : Int),
      s.reg.length = 8 → s.ram.length = 256 →
      0 ≤ s.pc → s.pc ≤ 253 →
      s.ram.getD s.pc.toNat 0 = RET →
      s.reg.getD 7 0 = sp → 0 ≤ sp → sp ≤ 255 →
      s.ram.getD sp.toNat 0 = v →
      step s = .ok { s with reg := s.reg.set 7 (sp + 1), pc := v }) ∧
    (∀ (s : CPU) (A sp X : Int),
      s.reg.length = 8 → s.ram.length = 256 →
      0 ≤ s.pc → s.pc ≤ 253 →
      s.ram.getD s.pc.toNat 0 = CALL →
      s.ram.getD (s.pc + 1).toNat 0 = A →
      0 ≤ A → A < 8 → A ≠ 7 →
      s.reg.getD 7 0 = sp → 1 ≤ sp → sp ≤ 256 →
      s.reg.getD A.toNat 0 = X →
      0 ≤ X → X ≤ 253 → X ≠ sp - 1 →
      s.ram.getD X.toNat 0 = RET →
      Except.map (fun t => t.pc) ((step s).bind step) = .ok (s.pc + 2)) := by
  refine ⟨?_, ?_, ?_⟩
  · intro s A sp t hreg hram hpc0 hpc1 hop hA hA0 hA1 hA7 hsp hsp1 hsp2 ht
    exact step_call s A sp t hreg hram hpc0 hpc1 hop hA hA0 hA1 hA7 hsp hsp1 hsp2 ht
  · intro s sp v hreg hram hpc0 hpc1 hop hsp hsp0 hsp2 hv
    exact step_ret s sp v hreg hram hpc0 hpc1 hop hsp hsp0 hsp2 hv
  · intro s A sp X hreg hram hpc0 hpc1 hop hA hA0 hA1 hA7 hsp hsp1 hsp2 hX hX0
      hX1 hXsp hret
    have hc := step_call s A sp X hreg hram hpc0 hpc1 hop hA hA0 hA1 hA7 hsp
      hsp1 hsp2 hX
    rw [hc]
    have hlenreg : (s.reg.set 7 (sp - 1)).length = 8 := by rw [List.length_set, hreg]
    have hlenram : (s.ram.set (sp - 1).toNat (s.pc + 2)).length = 256 := by
      rw [List.length_set, hram]
    have hretop : (s.ram.set (sp - 1).toNat (s.pc + 2)).getD X.toNat 0 = RET := by
      rw [getD_set_ne _ _ _ _ (by omega), hret]
    have hsp' : (s.reg.set 7 (sp - 1)).getD 7 0 = sp - 1 :=
      getD_set_self _ _ _ (by omega)
    have hv' : (s.ram.set (sp - 1).toNat (s.pc + 2)).getD (sp - 1).toNat 0 =
        s.pc + 2 :=
      getD_set_self _ _ _ (by omega)
    have hr := step_ret { s with
        reg := s.reg.set 7 (sp - 1),
        ram := s.ram.set (sp - 1).toNat (s.pc + 2),
        pc := X } (sp - 1) (s.pc + 2)
      hlenreg hlenram hX0 hX1 hretop hsp' (by omega) (by omega) hv'
    simp only [bind, Except.bind, hr, Except.map]

/-- Witness for C5: `CALL R0` at PC 0 with `reg[0] = 10`, SP 100 pushes 2 at
address 99 and jumps to 10; `RET` at 10 pops it; the composition resumes at
PC 2. -/
theorem claim_C5_call_ret_witness :
    step { CPU.init with
      ram := ((List.replicate 256 0).set 0 CALL).set 10 RET,
      reg := ((List.replicate 8 0).set 0 10).set 7 100 } =
      .ok { CPU.init with
        ram := (((List.replicate 256 0).set 0 CALL).set 10 RET).set
          ((100 : Int) - 1).toNat (0 + 2),
        reg := (((List.replicate 8 0).set 0 10).set 7 100).set 7 ((100 : Int) - 1),
        pc := 10 } ∧
    step { CPU.init with
      ram := (List.replicate 256 0).set 50 RET,
      reg := (List.replicate 8 0).set 7 99,
      pc := 50 } =
      .ok { CPU.init with
        ram := (List.replicate 256 0).set 50 RET,
        reg := ((List.replicate 8 0).set 7 99).set 7 ((99 : Int) + 1),
        pc := 0 } ∧
    Except.map (fun t => t.pc)
      ((step { CPU.init with
        ram := ((List.replicate 256 0).set 0 CALL).set 10 RET,
        reg := ((List.replicate 8 0).set 0 10).set 7 100 }).bind step) =
      .ok ((0 : Int) + 2) := by
  refine ⟨?_, ?_, ?_⟩
  · exact claim_C5_call_ret.1 _ 0 100 10 (by decide) (by decide) (by decide)
      (by decide) (by decide) (by decide) (by decide) (by decide) (by decide)
      (by decide) (by decide) (by decide) (by decide)
  · exact claim_C5_call_ret.2.1 _ 99 0 (by decide) (by decide) (by decide)
      (by decide) (by decide) (by decide) (by decide) (by decide) (by decide)
  · exact claim_C5_call_ret.2.2 _ 0 100 10 (by decide) (by decide) (by decide)
      (by decide) (by decide) (by decide) (by decide) (by decide) (by decide)
      (by decide) (by decide) (by decide) (by decide) (by decide) (by decide)
      (by decide) (by decide)


/-- C9 (amended): the engine always reads the operand bytes at `PC+1` and
`PC+2`; for a zero-operand instruction such as Halt these reads are ignored
— whatever bytes sit there, the step just halts and advances PC by 1 —
provided the instruction sits at an address up to 253, so that the two
operand reads are in bounds. -/
theorem claim_C9_operand_reads_harmless (s : CPU)
    (hram : s.ram.length = 256) (hpc0 : 0 ≤ s.pc) (hpc1 : s.pc ≤ 253)
    (hop : s.ram.getD s.pc.toNat 0 = HLT) :
    step s = .ok { s with running := false, pc := s.pc + 1 } := by
  have h1 : pyGet s.ram s.pc = .ok HLT := by
    rw [pyGet_ok _ _ hpc0 (by omega), hop]
  have h2 : pyGet s.ram (s.pc + 1) = .ok (s.ram.getD (s.pc + 1).toNat 0) :=
    pyGet_ok _ _ (by omega) (by omega)
  have h3 : pyGet s.ram (s.pc + 2) = .ok (s.ram.getD (s.pc + 2).toNat 0) :=
    pyGet_ok _ _ (by omega) (by omega)
  rw [step_eq s HLT _ _ .hlt h1 h2 h3 table_HLT]
  simp only [applyHandler, op_hlt, bind, Except.bind, pure, Except.pure,
    is_alu_HLT, sets_pc_HLT, Bool.false_eq_true, if_false, op_size_HLT]
  rw [show s.pc + 1 + 0 = s.pc + 1 from by ring]

/-- Counterexample to C9 as stated: a Halt at address 254 (an "address up
to 255") makes the unconditional operand read at `PC+2 = 256` raise
`IndexError`, so the extra reads are not harmless at every such address. -/
theorem claim_C9_counterexample :
    step { CPU.init with
      ram := (List.replicate 256 0).set 254 HLT, pc := 254 } =
      .error .indexError ∧
    (254 : Int) ≤ 255 := by
  exact ⟨by decide, by decide⟩

/-- Witness for C9 (amended): Halt at address 253 with junk operand bytes
99 and 77 at 254/255 halts cleanly, ignoring them. -/
theorem claim_C9_operand_reads_harmless_witness :
    step { CPU.init with
      ram := (((List.replicate 256 0).set 253 HLT).set 254 99).set 255 77,
      pc := 253 } =
      .ok { { CPU.init with
        ram := (((List.replicate 256 0).set 253 HLT).set 254 99).set 255 77,
        pc := 253 } with running := false, pc := (253 : Int) + 1 } :=
  claim_C9_operand_reads_harmless _ (by decide) (by decide) (by decide) (by decide)


theorem alu_mask_error {a : Int} {s : CPU} {e : PyErr}
    (h : alu_mask a s = .error e) : e = .indexError := by
  simp only [alu_mask, bind, Except.bind, pure, Except.pure] at h
  repeat' split at h
  all_goals try exact Except.noConfusion h
  all_goals injection h with h2
  all_goals subst h2
  all_goals first
    | exact pyGet_error (by assumption)
    | exact pySet_error (by assumption)

theorem push_stack_error {s : CPU} {v : Int} {e : PyErr}
    (h : push_stack s v = .error e) : e = .indexError := by
  simp only [push_stack, bind, Except.bind, pure, Except.pure] at h
  repeat' split at h
  all_goals try exact Except.noConfusion h
  all_goals injection h with h2
  all_goals subst h2
  all_goals first
    | exact pyGet_error (by assumption)
    | exact pySet_error (by assumption)

theorem pop_stack_error {s : CPU} {e : PyErr}
    (h : pop_stack s = .error e) : e = .indexError := by
  simp only [pop_stack, bind, Except.bind, pure, Except.pure] at h
  repeat' split at h
  all_goals try exact Except.noConfusion h
  all_goals injection h with h2
  all_goals subst h2
  all_goals first
    | exact pyGet_error (by assumption)
    | exact pySet_error (by assumption)

/-- A handler can only fail with `IndexError` (out-of-range register or
memory index), `ValueError` (`PRA` on an invalid code point), or — exactly
for the placeholder handler — the UnimplementedOpcode report. -/
theorem applyHandler_error {h : Handler} {op a b : Int} {s : CPU} {e : PyErr}
    (he : applyHandler h op a b s = .error e) :
    e = .indexError ∨ e = .valueError ∨
      (h = .unimplemented ∧ e = .unimplementedOpcode op) := by
  cases h with
  | unimplemented =>
    simp only [applyHandler, unimplemented_op] at he
    injection he with he2
    subst he2
    exact Or.inr (Or.inr ⟨rfl, rfl⟩)
  | push =>
    simp only [applyHandler, op_push, bind, Except.bind, pure, Except.pure] at he
    cases hg : pyGet s.reg a with
    | error e1 =>
      simp only [hg] at he
      injection he with he2
      subst he2
      exact Or.inl (pyGet_error hg)
    | ok v =>
      simp only [hg] at he
      exact Or.inl (push_stack_error he)
  | pop =>
    simp only [applyHandler, op_pop, bind, Except.bind, pure, Except.pure] at he
    cases hps : pop_stack s with
    | error e1 =>
      simp only [hps] at he
      injection he with he2
      subst he2
      exact Or.inl (pop_stack_error hps)
    | ok r =>
      simp only [hps] at he
      cases hset : pySet r.2.reg a r.1 with
      | error e1 =>
        simp only [hset] at he
        injection he with he2
        subst he2
        exact Or.inl (pySet_error hset)
      | ok rg =>
        simp only [hset] at he
        exact Except.noConfusion he
  | call =>
    simp only [applyHandler, op_call, bind, Except.bind, pure, Except.pure] at he
    cases hps : push_stack s (s.pc + 2) with
    | error e1 =>
      simp only [hps] at he
      injection he with he2
      subst he2
      exact Or.inl (push_stack_error hps)
    | ok s1 =>
      simp only [hps] at he
      cases hg : pyGet s1.reg a with
      | error e1 =>
        simp only [hg] at he
        injection he with he2
        subst he2
        exact Or.inl (pyGet_error hg)
      | ok t =>
        simp only [hg] at he
        exact Except.noConfusion he
  | ret =>
    simp only [applyHandler, op_ret, bind, Except.bind, pure, Except.pure] at he
    cases hps : pop_stack s with
    | error e1 =>
      simp only [hps] at he
      injection he with he2
      subst he2
      exact Or.inl (pop_stack_error hps)
    | ok r =>
      simp only [hps] at he
      exact Except.noConfusion he
  | nop =>
    simp only [applyHandler, op_nop, pure, Except.pure] at he
    exact Except.noConfusion he
  | hlt =>
    simp only [applyHandler, op_hlt, pure, Except.pure] at he
    exact Except.noConfusion he
  | ldi =>
    simp only [applyHandler, op_ldi, bind, Except.bind, pure, Except.pure] at he
    repeat' split at he
    all_goals try exact Except.noConfusion he
    all_goals injection he with he2
    all_goals subst he2
    all_goals first
      | exact Or.inl (pyGet_error (by assumption))
      | exact Or.inl (pySet_error (by assumption))
  | ld =>
    simp only [applyHandler, op_ld, bind, Except.bind, pure, Except.pure] at he
    repeat' split at he
    all_goals try exact Except.noConfusion he
    all_goals injection he with he2
    all_goals subst he2
    all_goals first
      | exact Or.inl (pyGet_error (by assumption))
      | exact Or.inl (pySet_error (by assumption))
  | add =>
    simp only [applyHandler, op_add, bind, Except.bind, pure, Except.pure] at he
    repeat' split at he
    all_goals try exact Except.noConfusion he
    all_goals injection he with he2
    all_goals subst he2
    all_goals first
      | exact Or.inl (pyGet_error (by assumption))
      | exact Or.inl (pySet_error (by assumption))
  | mul =>
    simp only [applyHandler, op_mul, bind, Except.bind, pure, Except.pure] at he
    repeat' split at he
    all_goals try exact Except.noConfusion he
    all_goals injection he with he2
    all_goals subst he2
    all_goals first
      | exact Or.inl (pyGet_error (by assumption))
      | exact Or.inl (pySet_error (by assumption))
  | inc =>
    simp only [applyHandler, op_inc, bind, Except.bind, pure, Except.pure] at he
    repeat' split at he
    all_goals try exact Except.noConfusion he
    all_goals injection he with he2
    all_goals subst he2
    all_goals first
      | exact Or.inl (pyGet_error (by assumption))
      | exact Or.inl (pySet_error (by assumption))
  | dec =>
    simp only [applyHandler, op_dec, bind, Except.bind, pure, Except.pure] at he
    repeat' split at he
    all_goals try exact Except.noConfusion he
    all_goals injection he with he2
    all_goals subst he2
    all_goals first
      | exact Or.inl (pyGet_error (by assumption))
      | exact Or.inl (pySet_error (by assumption))
  | prn =>
    simp only [applyHandler, op_prn, bind, Except.bind, pure, Except.pure] at he
    repeat' split at he
    all_goals try exact Except.noConfusion he
    all_goals injection he with he2
    all_goals subst he2
    all_goals exact Or.inl (pyGet_error (by assumption))
  | pra =>
    simp only [applyHandler, op_pra, bind, Except.bind, pure, Except.pure] at he
    repeat' split at he
    all_goals try exact Except.noConfusion he
    all_goals injection he with he2
    all_goals subst he2
    all_goals first
      | exact Or.inl (pyGet_error (by assumption))
      | exact Or.inr (Or.inl rfl)
  | cmp =>
    simp only [applyHandler, op_cmp, bind, Except.bind, pure, Except.pure] at he
    repeat' split at he
    all_goals try exact Except.noConfusion he
    all_goals injection he with he2
    all_goals subst he2
    all_goals exact Or.inl (pyGet_error (by assumption))
  | jeq =>
    simp only [applyHandler, op_jeq, bind, Except.bind, pure, Except.pure] at he
    repeat' split at he
    all_goals try exact Except.noConfusion he
    all_goals injection he with he2
    all_goals subst he2
    all_goals exact Or.inl (pyGet_error (by assumption))
  | jne =>
    simp only [applyHandler, op_jne, bind, Except.bind, pure, Except.pure] at he
    repeat' split at he
    all_goals try exact Except.noConfusion he
    all_goals injection he with he2
    all_goals subst he2
    all_goals exact Or.inl (pyGet_error (by assumption))
  | jmp =>
    simp only [applyHandler, op_jmp, bind, Except.bind, pure, Except.pure] at he
    repeat' split at he
    all_goals try exact Except.noConfusion he
    all_goals injection he with he2
    all_goals subst he2
    all_goals exact Or.inl (pyGet_error (by assumption))

theorem step_error_iff {s : CPU} {e : PyErr} :
    step s = .error e ↔ stepCore s = .error e := by
  constructor
  · intro h
    simp only [step, bind, Except.bind, pure, Except.pure] at h
    cases hc : stepCore s with
    | error e2 =>
      simp only [hc] at h
      injection h with h2
      rw [h2]
    | ok r =>
      simp only [hc] at h
      exact Except.noConfusion h
  · intro h
    simp only [step, bind, Except.bind, pure, Except.pure, h]

/-- Every failing `stepCore` fails with an index error, a value error, the
UnknownOpcode report (carrying the failing address and the fetched opcode)
or the UnimplementedOpcode report (carrying the fetched opcode). -/
theorem stepCore_error_elim {s : CPU} {e : PyErr} (hc : stepCore s = .error e) :
    e = .indexError ∨ e = .valueError ∨
      (∃ op, pyGet s.ram s.pc = .ok op ∧ instruction_table op = none ∧
        e = .invalidOpcode s.pc op) ∨
      (∃ op, pyGet s.ram s.pc = .ok op ∧
        instruction_table op = some .unimplemented ∧
        e = .unimplementedOpcode op) := by
  simp only [stepCore, bind, Except.bind, pure, Except.pure] at hc
  cases hop : pyGet s.ram s.pc with
  | error e1 =>
    simp only [hop] at hc
    injection hc with h2
    subst h2
    exact Or.inl (pyGet_error hop)
  | ok opv =>
    simp only [hop] at hc
    cases ha : pyGet s.ram (s.pc + 1) with
    | error e1 =>
      simp only [ha] at hc
      injection hc with h2
      subst h2
      exact Or.inl (pyGet_error ha)
    | ok a =>
      simp only [ha] at hc
      cases hb : pyGet s.ram (s.pc + 2) with
      | error e1 =>
        simp only [hb] at hc
        injection hc with h2
        subst h2
        exact Or.inl (pyGet_error hb)
      | ok b =>
        simp only [hb] at hc
        cases ht : instruction_table opv with
        | none =>
          simp only [ht] at hc
          injection hc with h2
          subst h2
          exact Or.inr (Or.inr (Or.inl ⟨opv, rfl, ht, rfl⟩))
        | some hh =>
          simp only [ht] at hc
          cases happ : applyHandler hh opv a b s with
          | error e1 =>
            simp only [happ] at hc
            injection hc with h2
            subst h2
            rcases applyHandler_error happ with h1 | h1 | ⟨hhu, h1⟩
            · exact Or.inl h1
            · exact Or.inr (Or.inl h1)
            · subst hhu
              exact Or.inr (Or.inr (Or.inr ⟨opv, rfl, ht, h1⟩))
          | ok s1 =>
            simp only [happ] at hc
            by_cases halu : is_alu opv = true
            · simp only [halu, if_true] at hc
              cases hm : alu_mask a s1 with
              | error e1 =>
                simp only [hm] at hc
                injection hc with h2
                subst h2
                exact Or.inl (alu_mask_error hm)
              | ok s2 =>
                simp only [hm] at hc
                exact Except.noConfusion hc
            · simp only [halu, Bool.false_eq_true, if_false] at hc
              exact Except.noConfusion hc


/-- C6 (amended): apart from `IndexError` (unchecked list indexing) and
`ValueError` (Print-Alpha on an invalid code point), the run loop fails in
exactly two ways, both aborting the step rather than acting as a no-op: a
fetched opcode with no dispatch-table entry raises the UnknownOpcode report
carrying the failing address and the opcode byte, and an opcode mapped to
the explicit placeholder handler raises the distinguishable
UnimplementedOpcode report carrying the opcode byte; conversely every
non-index, non-value failure is one of these two reports. -/
theorem claim_C6_two_fatal_errors :
    (∀ (s : CPU) (op a b : Int),
      pyGet s.ram s.pc = .ok op →
      pyGet s.ram (s.pc + 1) = .ok a →
      pyGet s.ram (s.pc + 2) = .ok b →
      instruction_table op = none →
      step s = .error (.invalidOpcode s.pc op)) ∧
    (∀ (s : CPU) (op a b : Int),
      pyGet s.ram s.pc = .ok op →
      pyGet s.ram (s.pc + 1) = .ok a →
      pyGet s.ram (s.pc + 2) = .ok b →
      instruction_table op = some .unimplemented →
      step s = .error (.unimplementedOpcode op)) ∧
    (∀ (s : CPU) (e : PyErr),
      step s = .error e → e ≠ .indexError → e ≠ .valueError →
      (∃ op, pyGet s.ram s.pc = .ok op ∧ instruction_table op = none ∧
        e = .invalidOpcode s.pc op) ∨
      (∃ op, pyGet s.ram s.pc = .ok op ∧
        instruction_table op = some .unimplemented ∧
        e = .unimplementedOpcode op)) := by
  refine ⟨?_, ?_, ?_⟩
  · intro s op a b hop ha hb ht
    simp only [step, stepCore, bind, Except.bind, pure, Except.pure,
      hop, ha, hb, ht]
  · intro s op a b hop ha hb ht
    simp only [step, stepCore, bind, Except.bind, pure, Except.pure,
      hop, ha, hb, ht, applyHandler, unimplemented_op]
  · intro s e herr hni hnv
    rcases stepCore_error_elim (step_error_iff.mp herr) with h | h | h | h
    · exact absurd h hni
    · exact absurd h hnv
    · exact Or.inl h
    · exact Or.inr h

/-- Counterexample to C6 as stated: the run loop has a third failure mode.
`ADD` with register operand 8 makes the handler index `reg[8]`, raising an
`IndexError` that is neither of the two claimed reports. -/
theorem claim_C6_counterexample :
    step { CPU.init with
      ram := ((List.replicate 256 0).set 0 ADD).set 1 8 } =
      .error .indexError ∧
    PyErr.indexError ≠ .invalidOpcode 0 ADD ∧
    PyErr.indexError ≠ .unimplementedOpcode ADD := by
  exact ⟨by decide, by decide, by decide⟩

/-- Witness for C6 (amended): opcode byte 99 has no table entry and is
reported with address 0 and the byte; `SUB` is wired to the placeholder and
is reported with the byte; a run-loop `IndexError` is classified by the
converse direction. -/
theorem claim_C6_two_fatal_errors_witness :
    step { CPU.init with ram := (List.replicate 256 0).set 0 99 } =
      .error (.invalidOpcode 0 99) ∧
    step { CPU.init with ram := (List.replicate 256 0).set 0 SUB } =
      .error (.unimplementedOpcode SUB) ∧
    ((∃ op, pyGet ({ CPU.init with
        ram := (List.replicate 256 0).set 0 99 } : CPU).ram 0 = .ok op ∧
      instruction_table op = none ∧
      PyErr.invalidOpcode 0 99 = .invalidOpcode 0 op) ∨
    (∃ op, pyGet ({ CPU.init with
        ram := (List.replicate 256 0).set 0 99 } : CPU).ram 0 = .ok op ∧
      instruction_table op = some .unimplemented ∧
      PyErr.invalidOpcode 0 99 = .unimplementedOpcode op)) := by
  refine ⟨?_, ?_, ?_⟩
  · exact claim_C6_two_fatal_errors.1 _ 99 0 0 (by decide) (by decide)
      (by decide) (by decide)
  · exact claim_C6_two_fatal_errors.2.1 _ SUB 0 0 (by decide) (by decide)
      (by decide) (by decide)
  · exact claim_C6_two_fatal_errors.2.2
      { CPU.init with ram := (List.replicate 256 0).set 0 99 }
      (.invalidOpcode 0 99) (by decide) (by decide) (by decide)


theorem pyFind_not_mem {l : List Char} {c : Char} (h : c ∉ l) : pyFind l c = -1 := by
  induction l with
  | nil => rfl
  | cons x xs ih =>
    simp only [List.mem_cons, not_or] at h
    simp only [pyFind, if_neg (fun hxc : x = c => h.1 hxc.symm)]
    rw [ih h.2]
    simp

theorem pyFind_append (p q : List Char) (c : Char) (h : c ∉ p) :
    pyFind (p ++ c :: q) c = (p.length : Int) := by
  induction p with
  | nil => simp [pyFind]
  | cons x xs ih =>
    simp only [List.mem_cons, not_or] at h
    simp only [List.cons_append, pyFind, if_neg (fun hxc : x = c => h.1 hxc.symm),
      List.append_eq]
    rw [ih h.2]
    rw [if_neg (by omega)]
    simp only [List.length_cons]
    push_cast
    ring

theorem pySliceTo_nonneg (l : List Char) (n : Nat) : pySliceTo l (n : Int) = l.take n := by
  simp [pySliceTo]

theorem pySliceTo_neg_one (l : List Char) : pySliceTo l (-1) = l.take (l.length - 1) := by
  have h1 : ¬ (0 : Int) ≤ -1 := by omega
  have h2 : ((l.length : Int) + (-1)).toNat = l.length - 1 := by omega
  simp only [pySliceTo, h1, if_false, h2]

/-- Truncation at the first `#`: a line `p ++ \'#\' :: q` with no `#` in `p`
is cut down to `p` before stripping. -/
theorem clean_line_hash (p q : List Char) (h : '#' ∉ p) :
    clean_line (p ++ '#' :: q) = py_strip p := by
  unfold clean_line
  rw [pyFind_append p q '#' h, pySliceTo_nonneg, List.take_left]

/-- A line with no `#` at all: `line.find` returns `-1` and the slice
`line[:-1]` drops the final character before stripping. -/
theorem clean_line_no_hash (l : List Char) (h : '#' ∉ l) :
    clean_line l = py_strip (l.take (l.length - 1)) := by
  unfold clean_line
  rw [pyFind_not_mem h, pySliceTo_neg_one]

/-- Successful parses are exactly the base-2 values of the cleaned
non-empty lines, in file order. -/
theorem parse_program_ok {lines : List (List Char)} {prog : List Int}
    (h : parse_program lines = .ok prog) :
    prog = lines.filterMap
      (fun l => if clean_line l = [] then none else int_base2 (clean_line l)) := by
  induction lines generalizing prog with
  | nil =>
    injection h with h2
    simp [h2.symm]
  | cons l ls ih =>
    simp only [parse_program] at h
    by_cases hc : clean_line l = []
    · rw [if_pos hc] at h
      rw [List.filterMap_cons_none (by simp [hc])]
      exact ih h
    · rw [if_neg hc] at h
      cases hi : int_base2 (clean_line l) with
      | none =>
        rw [hi] at h
        exact Except.noConfusion h
      | some v =>
        rw [hi] at h
        simp only [bind, Except.bind] at h
        cases hrest : parse_program ls with
        | error e =>
          simp only [hrest] at h
          exact Except.noConfusion h
        | ok rest =>
          simp only [hrest, pure, Except.pure] at h
          injection h with h2
          rw [@List.filterMap_cons_some (List Char) Int
            (fun l => if clean_line l = [] then none else int_base2 (clean_line l))
            l ls v (by simp [hc, hi])]
          rw [← h2, ih hrest]


/-- The second loop of `CPU.load` writes the program into memory one byte
per accepted value, in order, leaving all other cells unchanged. -/
theorem store_program_ok :
    ∀ (prog : List Int) (addr : Int) (ram : List Int),
      0 ≤ addr → addr.toNat + prog.length ≤ ram.length →
      ∃ ram', store_program prog addr ram = .ok ram' ∧
        ram'.length = ram.length ∧
        (∀ i : Nat, i < prog.length →
          ram'.getD (addr.toNat + i) 0 = prog.getD i 0) ∧
        (∀ i : Nat, i < ram.length →
          (i < addr.toNat ∨ addr.toNat + prog.length ≤ i) →
          ram'.getD i 0 = ram.getD i 0) := by
  intro prog
  induction prog with
  | nil =>
    intro addr ram h0 hlen
    exact ⟨ram, rfl, rfl, fun i hi => absurd hi (Nat.not_lt_zero i),
      fun i hi _ => rfl⟩
  | cons v rest ih =>
    intro addr ram h0 hlen
    have hlc : (v :: rest).length = rest.length + 1 := rfl
    rw [hlc] at hlen
    have hset : pySet ram addr v = .ok (ram.set addr.toNat v) :=
      pySet_ok _ _ _ h0 (by omega)
    obtain ⟨ram', hst, hlen', hwr, hun⟩ := ih (addr + 1) (ram.set addr.toNat v)
      (by omega) (by rw [List.length_set]; omega)
    refine ⟨ram', ?_, ?_, ?_, ?_⟩
    · simp only [store_program, hset, bind, Except.bind]
      exact hst
    · rw [hlen', List.length_set]
    · intro i hi
      cases i with
      | zero =>
        rw [Nat.add_zero]
        have hu := hun addr.toNat (by rw [List.length_set]; omega) (by omega)
        rw [hu, getD_set_self _ _ _ (by omega)]
        rfl
      | succ j =>
        have hj : j < rest.length := by
          rw [hlc] at hi
          omega
        have hw := hwr j hj
        rw [show addr.toNat + (j + 1) = (addr + 1).toNat + j from by omega]
        rw [hw]
        rfl
    · intro i hi hrange
      rw [hlc] at hrange
      have h1 := hun i (by rw [List.length_set]; exact hi) (by omega)
      rw [h1, getD_set_ne _ _ _ _ (by omega)]

/-- A line whose cleaned form is non-empty but fails to parse as base 2
makes the whole load fail with `ValueError`. -/
theorem parse_program_error {lines : List (List Char)} {l : List Char}
    (hmem : l ∈ lines) (hc : clean_line l ≠ []) (hp : int_base2 (clean_line l) = none) :
    parse_program lines = .error .valueError := by
  induction lines with
  | nil => cases hmem
  | cons x xs ih =>
    rcases List.mem_cons.mp hmem with rfl | hmem'
    · simp only [parse_program, if_neg hc, hp]
    · simp only [parse_program]
      by_cases hcx : clean_line x = []
      · rw [if_pos hcx]
        exact ih hmem'
      · rw [if_neg hcx]
        cases hix : int_base2 (clean_line x) with
        | none => rfl
        | some v =>
          rw [ih hmem']
          simp [bind, Except.bind]

theorem load_error_of_parse {lines : List (List Char)} {s : CPU}
    (h : parse_program lines = .error .valueError) :
    load lines s = .error .valueError := by
  simp only [load, bind, Except.bind, h]


/-- C7 (amended): the loader truncates each line at the first `#`, trims
the remainder, skips resulting empty lines, parses every other resulting
line as a base-2 integer, and stores the accepted values sequentially from
address 0 in file order — but a line containing no `#` at all has its final
character dropped by `line[:-1]` (harmless for newline-terminated lines,
where only the newline is lost) before trimming. -/
theorem claim_C7_loader_pipeline :
    (∀ (p q : List Char), '#' ∉ p →
      clean_line (p ++ '#' :: q) = py_strip p) ∧
    (∀ l : List Char, '#' ∉ l →
      clean_line l = py_strip (l.take (l.length - 1))) ∧
    (∀ (lines : List (List Char)) (prog : List Int),
      parse_program lines = .ok prog →
      prog = lines.filterMap
        (fun l => if clean_line l = [] then none else int_base2 (clean_line l))) ∧
    (∀ (lines : List (List Char)) (s : CPU) (prog : List Int),
      parse_program lines = .ok prog →
      prog.length ≤ s.ram.length →
      ∃ s', load lines s = .ok s' ∧
        s'.ram.length = s.ram.length ∧
        (∀ i : Nat, i < prog.length → s'.ram.getD i 0 = prog.getD i 0) ∧
        (∀ i : Nat, i < s.ram.length → prog.length ≤ i →
          s'.ram.getD i 0 = s.ram.getD i 0)) := by
  refine ⟨clean_line_hash, clean_line_no_hash, @parse_program_ok, ?_⟩
  intro lines s prog hp hlen
  obtain ⟨ram', hst, hl, hw, hu⟩ := store_program_ok prog 0 s.ram (by omega)
    (by simpa using hlen)
  refine ⟨{ s with ram := ram' }, ?_, hl, ?_, ?_⟩
  · simp only [load, bind, Except.bind, hp, hst, pure, Except.pure]
  · intro i hi
    have := hw i hi
    simpa using this
  · intro i hi hge
    exact hu i hi (Or.inr (by simpa using hge))

/-- Counterexample to C7 as stated: a line with no `#` does not contribute
its full content. The single-line file `"10"` (no trailing newline) is
loaded as the value 1 — `line[:-1]` drops the final digit — whereas the
full content minus whitespace parses as 2. -/
theorem claim_C7_counterexample :
    parse_program [['1', '0']] = .ok [1] ∧
    int_base2 (py_strip ['1', '0']) = some 2 ∧
    (1 : Int) ≠ 2 := by
  exact ⟨by decide, by decide, by decide⟩

/-- Witness for C7 (amended) on concrete lines: `"1#x"` truncates at `#`;
`"10"` (no `#`) loses its final character; a commented line, a blank line
and a newline-terminated digit line parse to exactly the digit's value; and
loading `"101\n"` stores 5 at address 0 leaving the rest of memory zero. -/
theorem claim_C7_loader_pipeline_witness :
    clean_line (['1'] ++ '#' :: ['x']) = py_strip ['1'] ∧
    clean_line ['1', '0'] = py_strip (['1', '0'].take (['1', '0'].length - 1)) ∧
    ([1] : List Int) = [['1', '\n']].filterMap
      (fun l => if clean_line l = [] then none else int_base2 (clean_line l)) ∧
    (∃ s', load [['1', '0', '1', '\n']] CPU.init = .ok s' ∧
      s'.ram.length = CPU.init.ram.length ∧
      (∀ i : Nat, i < ([5] : List Int).length →
        s'.ram.getD i 0 = ([5] : List Int).getD i 0) ∧
      (∀ i : Nat, i < CPU.init.ram.length → ([5] : List Int).length ≤ i →
        s'.ram.getD i 0 = CPU.init.ram.getD i 0)) := by
  refine ⟨?_, ?_, ?_, ?_⟩
  · exact claim_C7_loader_pipeline.1 ['1'] ['x'] (by decide)
  · exact claim_C7_loader_pipeline.2.1 ['1', '0'] (by decide)
  · exact claim_C7_loader_pipeline.2.2.1 [['1', '\n']] [1] (by decide)
  · exact claim_C7_loader_pipeline.2.2.2 [['1', '0', '1', '\n']] CPU.init [5]
      (by decide) (by decide)

/-- C8 (amended): every non-empty post-stripping line must parse as a
base-2 integer literal, and any parse failure is a fatal `ValueError`
raised by `load` before execution starts — but the parsed values are
written to memory unchecked and may lie outside 0–255. -/
theorem claim_C8_load_errors :
    (∀ (lines : List (List Char)) (l : List Char),
      l ∈ lines → clean_line l ≠ [] → int_base2 (clean_line l) = none →
      parse_program lines = .error .valueError) ∧
    (∀ (lines : List (List Char)) (s : CPU),
      parse_program lines = .error .valueError →
      load lines s = .error .valueError) := by
  refine ⟨?_, ?_⟩
  · intro lines l hmem hc hp
    exact parse_program_error hmem hc hp
  · intro lines s h
    exact load_error_of_parse h

/-- Counterexample to C8 as stated: the loader performs no 0–255 range
check. The nine-digit line `"111111111\n"` loads the value 511 into memory
at address 0, a value outside 0–255. -/
theorem claim_C8_counterexample :
    Except.map (fun t => t.ram.getD 0 0)
      (load [['1', '1', '1', '1', '1', '1', '1', '1', '1', '\n']] CPU.init) =
      .ok 511 ∧
    ¬ (511 : Int) ≤ 255 := by
  exact ⟨by decide, by decide⟩

/-- Witness for C8 (amended): a file with a good line `"101"` and a bad
line `"xyz"` fails the parse with `ValueError`, and `load` propagates it. -/
theorem claim_C8_load_errors_witness :
    parse_program [['1', '0', '1', '\n'], ['x', 'y', 'z', '\n']] =
      .error .valueError ∧
    load [['1', '0', '1', '\n'], ['x', 'y', 'z', '\n']] CPU.init =
      .error .valueError := by
  refine ⟨?_, ?_⟩
  · exact claim_C8_load_errors.1 _ ['x', 'y', 'z', '\n'] (by decide) (by decide)
      (by decide)
  · exact claim_C8_load_errors.2 _ CPU.init
      (claim_C8_load_errors.1 _ ['x', 'y', 'z', '\n'] (by decide) (by decide)
        (by decide))

end LS8
